import Mathlib

/-!
# systemstat

A shallow embedding of `systemstat.go` (a one-shot command line tool that prints
CPU, disk, memory, network and process information) and theorems about it.

The program talks to the outside world through three channels: standard output,
standard error and the process exit code; and it reads the operating system
through the metrics library.  All of this is made explicit:

* `World` carries the package-level variables of the program, the text written to
  the two output streams so far and the list of metrics queries issued so far;
* `Prog α` is a computation that either returns a value or terminates the process
  with an exit code (`os.Exit`);
* `Provider` is one snapshot of the answers of the metrics library, each answer
  being a Go-style pair of a value and an optional error;
* `Env` collects what the program obtains from libraries whose text is not part of
  the repository (terminal styling, float formatting, the flag table printer).
-/

namespace Systemstat

/-! ## Data returned by the metrics library -/

/-- A 64 bit floating point number, kept as its bit pattern; the program only ever
formats such numbers. -/
structure Float64 where
  bits : Nat
  deriving DecidableEq, Repr

/-- Fields of `cpu.InfoStat` read by the program. -/
structure InfoStat where
  ModelName : String
  Cores : Int
  deriving DecidableEq, Repr

/-- Fields of `disk.PartitionStat` read by the program. -/
structure PartitionStat where
  Device : String
  Mountpoint : String
  Fstype : String
  deriving DecidableEq, Repr

/-- Fields of `mem.VirtualMemoryStat` read by the program. -/
structure VirtualMemoryStat where
  Total : Nat
  Free : Nat
  UsedPercent : Float64
  deriving DecidableEq, Repr

/-- Fields of `net.IOCountersStat` read by the program. -/
structure IOCountersStat where
  Name : String
  PacketsSent : Nat
  PacketsRecv : Nat
  deriving DecidableEq, Repr

/-- Fields of `process.MemoryInfoStat` read by the program. -/
structure MemoryInfoStat where
  RSS : Nat
  VMS : Nat
  Swap : Nat
  deriving DecidableEq, Repr

/-- Fields of `cpu.TimesStat` read by the program. -/
structure TimesStat where
  User : Float64
  System : Float64
  deriving DecidableEq, Repr

/-- A Go error value: `none` is `nil`, `some e` is an error whose text is `e`. -/
abbrev Err := Option String

/-- One snapshot of the metrics library.  Every entry is the pair `(value, err)` that
the corresponding Go call returns. -/
structure Provider where
  cpuInfo : List InfoStat × Err
  partitions : List PartitionStat × Err
  virtualMemory : VirtualMemoryStat × Err
  ioCounters : List IOCountersStat × Err
  pids : List Int × Err
  newProcess : Int → Int × Err
  procName : Int → String × Err
  procMemoryInfo : Int → MemoryInfoStat × Err
  procTimes : Int → TimesStat × Err
  procChildren : Int → List Int × Err

/-- The calls the program can make to the metrics library. -/
inductive Query where
  | cpuInfo
  | partitions
  | virtualMemory
  | ioCounters
  | pids
  | newProcess (pid : Int)
  | procName (pid : Int)
  | procMemoryInfo (pid : Int)
  | procTimes (pid : Int)
  | procChildren (pid : Int)
  deriving DecidableEq, Repr

/-- What the program takes from libraries outside the repository. -/
structure Env where
  /-- Value of `os.Args[0]`. -/
  arg0 : String
  /-- Value of `color.New(color.Bold).SprintFunc()`. -/
  bold : String → String
  /-- Rendering of a float64 under the verb `%f`. -/
  fmtF : Float64 → String
  /-- Rendering of a float64 under the verb `%v`. -/
  fmtV : Float64 → String
  /-- Text written by `flag.PrintDefaults()` for the flags registered in `init`. -/
  defaults : String
  /-- Rendering of a string under the verb `%q`. -/
  quote : String → String
  /-- Text of the error returned by the boolean flag setter for a rejected value. -/
  parseErr : String → String

/-! ## The process: package variables, output streams, exit -/

/-- State of the running process. -/
structure World where
  cpuStat : Bool
  diskStat : Bool
  memStat : Bool
  netStat : Bool
  procStat : Bool
  statusCode : Int
  stdout : String
  stderr : String
  queries : List Query
  deriving DecidableEq, Repr

/-- Outcome of a computation: it returns a value, or the process has exited. -/
inductive Result (α : Type) where
  | ret (a : α) (w : World)
  | exit (code : Int) (w : World)
  deriving DecidableEq, Repr

/-- A computation of the process. -/
def Prog (α : Type) : Type := World → Result α

/-- Sequencing; nothing runs after the process has exited. -/
def Prog.bind {α β : Type} (x : Prog α) (f : α → Prog β) : Prog β :=
  fun w => match x w with
    | .ret a w1 => f a w1
    | .exit c w1 => .exit c w1

/-- A computation that returns without any effect. -/
def Prog.pure {α : Type} (a : α) : Prog α := fun w => .ret a w

instance : Monad Prog where
  pure := Prog.pure
  bind := Prog.bind

/-- Reads the process state. -/
def getWorld : Prog World := fun w => .ret w w

/-- The state after the text `s` was written to standard output. -/
def World.out (w : World) (s : String) : World := { w with stdout := w.stdout ++ s }

/-- The state after the text `s` was written to standard error. -/
def World.err (w : World) (s : String) : World := { w with stderr := w.stderr ++ s }

/-- The state after the query `q` was put to the metrics library. -/
def World.ask (w : World) (q : Query) : World := { w with queries := w.queries ++ [q] }

/-- Writes to standard output (`fmt.Printf`, `fmt.Fprintf(os.Stdout, ...)`). -/
def printOut (s : String) : Prog Unit := fun w => .ret () (w.out s)

/-- Writes to standard error (`fmt.Fprintln(os.Stderr, ...)`, the flag package). -/
def printErr (s : String) : Prog Unit := fun w => .ret () (w.err s)

/-- The Go builtin `println()` without operands: a newline on standard error. -/
def println : Prog Unit := printErr "\n"

/-- The call `os.Exit(code)`. -/
def osExit {α : Type} (code : Int) : Prog α := fun w => .exit code w

/-- A call to the metrics library: the call is recorded and its answer returned. -/
def call {α : Type} (q : Query) (answer : α × Err) : Prog (α × Err) :=
  fun w => .ret answer (w.ask q)

/-! ## Library functions used by the collectors -/

/-- The function `strings.Join`. -/
def stringsJoin (elems : List String) (sep : String) : String :=
  match elems with
  | [] => ""
  | [a] => a
  | a :: rest => rest.foldl (fun b s => b ++ sep ++ s) a

/-! ## Collectors (`systemstat.go`, lines 180-314) -/

/-- Go: `checkError`. -/
def checkError (err : Err) (message : String) : Prog Unit :=
  match err with
  | some e => do
      printErr ("There was an error retreiving" ++ " " ++ message ++ " " ++ ":" ++ " " ++ e ++ "\n")
      osExit 1
  | none => pure ()

/-- Go: `getCPUStat`. -/
def getCPUStat (p : Provider) : Prog String := do
  let (cpus, err) ← call .cpuInfo p.cpuInfo
  checkError err "cpu stat"
  if cpus.length = 0 then
    return "no cpu was found"
  let cpuStats := cpus.foldl
    (fun acc cpu => acc ++ ["ModelName: " ++ cpu.ModelName ++ "\nCores: " ++ toString cpu.Cores ++ "\n"]) []
  let cpuStat := stringsJoin cpuStats "\n"
  return cpuStat

/-- Go: `getDiskStat`. -/
def getDiskStat (p : Provider) : Prog String := do
  let (disks, err) ← call .partitions p.partitions
  checkError err "disk stat"
  if disks.length = 0 then
    return "no disk was found"
  let diskStats := disks.foldl
    (fun acc disk =>
      if disk.Fstype ≠ "autofs" then
        acc ++ ["Device: " ++ disk.Device ++ "\nMountpoint: " ++ disk.Mountpoint ++ "\n"]
      else acc) []
  let diskStat := stringsJoin diskStats "\n"
  return diskStat

/-- Go: `getMemStat`. -/
def getMemStat (env : Env) (p : Provider) : Prog String := do
  let (mem, err) ← call .virtualMemory p.virtualMemory
  checkError err "mem stat"
  let memStat := "Total: " ++ toString mem.Total ++ "\nFree: " ++ toString mem.Free ++
    "\nUsedPercent: " ++ env.fmtF mem.UsedPercent ++ "%\n"
  return memStat

/-- Go: `getNetStat`. -/
def getNetStat (p : Provider) : Prog String := do
  let (nets, err) ← call .ioCounters p.ioCounters
  checkError err "net stat"
  if nets.length = 0 then
    return "no net was found"
  let netStats := nets.foldl
    (fun acc net =>
      if net.PacketsSent > 0 ∧ net.PacketsRecv > 0 then
        acc ++ ["Interface: " ++ net.Name ++ "\nPacketsSent: " ++ toString net.PacketsSent ++
          "\nPacketsRecv: " ++ toString net.PacketsRecv ++ "\n"]
      else acc) []
  let netStat := stringsJoin netStats "\n"
  return netStat

/-- The `for _, pid := range pids` loop of `getProcStat`; the second argument is the
current value of the local variable `procStat`. -/
def procLoop (env : Env) (p : Provider) : List Int → String → Prog String
  | [], procStat => pure procStat
  | pid :: rest, procStat =>
    if pid = 1 then do
      let (proc, err) ← call (.newProcess pid) (p.newProcess pid)
      checkError err "proc stat pid:1"
      let (name, err) ← call (.procName proc) (p.procName proc)
      checkError err "proc stat name"
      let (mem, err) ← call (.procMemoryInfo proc) (p.procMemoryInfo proc)
      checkError err "proc stat mem info"
      let (times, err) ← call (.procTimes proc) (p.procTimes proc)
      checkError err "proc stat times"
      let (children, err) ← call (.procChildren proc) (p.procChildren proc)
      checkError err "proc stat children"
      -- break
      pure ("Init(pid=1):\n" ++
        " Name: " ++ name ++ "\n" ++
        " ResidentSetSize: " ++ toString mem.RSS ++ "\n" ++
        " VirtualMemorySize: " ++ toString mem.VMS ++ "\n" ++
        " SwapSize: " ++ toString mem.Swap ++ "\n" ++
        " UserTime: " ++ env.fmtV times.User ++ "\n" ++
        " SystemTime: " ++ env.fmtV times.System ++ "\n" ++
        " Children: " ++ toString children.length ++ "\n")
    else procLoop env p rest procStat

/-- Go: `getProcStat`. -/
def getProcStat (env : Env) (p : Provider) : Prog String := do
  let (pids, err) ← call .pids p.pids
  checkError err "pid stat"
  if pids.length = 0 then
    return "no pid was found"
  procLoop env p pids ""

/-! ## Command line flags (`systemstat.go`, lines 45-145)

The flag values `allFlag` and `versionFlag`, the registrations of `init` and the usage
function are the program's.  `parseBool`, `failf`, `scan`, `setFlag`, `parseOne` and
`Parse` embed the functions of the Go standard library (`strconv.ParseBool`, package
`flag`) that `flag.Parse()` runs on them. -/

/-- Go: `VERSION`. -/
def VERSION : String := "v1.0.0"

/-- The variable behind a registered flag name. -/
inductive FlagVar where
  | all
  | cpuStat
  | diskStat
  | memStat
  | netStat
  | procStat
  | version
  deriving DecidableEq, Repr

/-- The flags registered by `init`, in registration order. -/
def formalTable : List (String × FlagVar) :=
  [("a", .all), ("all", .all),
   ("c", .cpuStat), ("cpu", .cpuStat),
   ("d", .diskStat), ("disk", .diskStat),
   ("m", .memStat), ("mem", .memStat),
   ("n", .netStat), ("net", .netStat),
   ("p", .procStat), ("proc", .procStat),
   ("v", .version), ("version", .version)]

/-- Lookup of a flag name among the registered flags. -/
def formal (name : String) : Option FlagVar := formalTable.lookup name

/-- The function `strconv.ParseBool`; `none` is its error result. -/
def parseBool (s : String) : Option Bool :=
  if s ∈ ["1", "t", "T", "TRUE", "true", "True"] then some true
  else if s ∈ ["0", "f", "F", "FALSE", "false", "False"] then some false
  else none

/-- Assignment to the boolean variable behind one of the five domain flags. -/
def assign (v : FlagVar) (b : Bool) : Prog Unit :=
  fun w => .ret () (match v with
    | .cpuStat => { w with cpuStat := b }
    | .diskStat => { w with diskStat := b }
    | .memStat => { w with memStat := b }
    | .netStat => { w with netStat := b }
    | .procStat => { w with procStat := b }
    | _ => w)

/-- The method `Set` of the value behind a flag: `allFlag.Set`, `versionFlag.Set`, and
the setter of the flag package for variables registered with `flag.BoolVar` (which
stores the parsed value, `false` when parsing fails, and returns the parse error). -/
def FlagVar.Set (env : Env) (v : FlagVar) (value : String) : Prog Err :=
  match v with
  | .all => fun w => .ret none
      { w with cpuStat := true, diskStat := true, memStat := true, netStat := true,
               procStat := true }
  | .version => do
      printOut ("\n" ++ env.bold "Version:" ++ " " ++ VERSION ++ "\n")
      osExit 0
      return none
  | x =>
      match parseBool value with
      | some b => do assign x b; return none
      | none => do assign x false; return some (env.parseErr value)

/-- Go: the function assigned to `flag.Usage` in `init`. -/
def Usage (env : Env) : Prog Unit := do
  println
  printOut ("Usage of " ++ env.arg0 ++ ":\n")
  printErr env.defaults
  println
  let w ← getWorld
  osExit w.statusCode

/-- The method `failf` of the flag package: the message goes to standard error,
followed by the usage function. -/
def failf (env : Env) (msg : String) : Prog Unit := do
  printErr (msg ++ "\n")
  Usage env

/-- Result of looking at one command line argument. -/
inductive Step where
  | seen
  | stop
  | help
  | failed
  deriving DecidableEq, Repr

/-- Splits `name=value` at the first `=` that is not the first character. -/
def splitValue : List Char → List Char × Option (List Char)
  | [] => ([], none)
  | c :: rest =>
    match rest.span (fun x => x != '=') with
    | (before, []) => (c :: before, none)
    | (before, _ :: value) => (c :: before, some value)

/-- The end of `parseOne`: the registered flag `flag` was named, with or without a
value.  Every registered flag is a boolean flag, so it never takes the next argument
as its value; without a value it is set to `true`. -/
def setFlag (env : Env) (name : String) (flag : FlagVar) (value : Option String) : Prog Step :=
  match value with
  | some value => do
    let err ← flag.Set env value
    match err with
    | some e => do
      failf env ("invalid boolean value " ++ env.quote value ++ " for -" ++ name ++ ": " ++ e)
      return .failed
    | none => return .seen
  | none => do
    let err ← flag.Set env "true"
    match err with
    | some e => do
      failf env ("invalid boolean flag " ++ name ++ ": " ++ e)
      return .failed
    | none => return .seen

/-- What the text of one argument amounts to for `parseOne`. -/
inductive Scanned where
  /-- Not a flag (`parseOne` returns `false, nil`): fewer than two characters, no
  leading minus sign, or the terminator `--`. -/
  | stop
  /-- A flag with bad syntax: nothing, a minus sign or an equals sign after the
  leading minus signs. -/
  | bad
  /-- A flag name, with the value given after an equals sign, if any. -/
  | named (name : String) (value : Option String)
  deriving DecidableEq, Repr

/-- The first half of `parseOne`: the analysis of the text of the argument `s`. -/
def scan (s : String) : Scanned :=
  let cs := s.data
  if cs.length < 2 ∨ cs.head? ≠ some '-' then .stop
  else
    let numMinuses := if cs.get? 1 = some '-' then 2 else 1
    if numMinuses = 2 ∧ cs.length = 2 then .stop
    else
      let name := cs.drop numMinuses
      if name.length = 0 ∨ name.head? = some '-' ∨ name.head? = some '=' then .bad
      else
        let nv := splitValue name
        .named (String.mk nv.1) (nv.2.map String.mk)

/-- The method `parseOne` of the flag package, applied to the next argument `s`. -/
def parseOne (env : Env) (s : String) : Prog Step :=
  match scan s with
  | .stop => pure .stop
  | .bad => do
    failf env ("bad flag syntax: " ++ s)
    return .failed
  | .named name value =>
    match formal name with
    | none =>
      if name = "help" ∨ name = "h" then do
        Usage env
        return .help
      else do
        failf env ("flag provided but not defined: -" ++ name)
        return .failed
    | some flag => setFlag env name flag value

/-- Go: `flag.Parse()` on the arguments after the program name; the flag set of the
command line exits on error, with code 0 for a help request and 2 otherwise. -/
def Parse (env : Env) : List String → Prog Unit
  | [] => pure ()
  | s :: rest => do
    let step ← parseOne env s
    match step with
    | .seen => Parse env rest
    | .stop => pure ()
    | .help => osExit 0
    | .failed => osExit 2

/-! ## The main function (`systemstat.go`, lines 148-178) -/

/-- Go: `main`; `args` is `os.Args[1:]`. -/
def main (env : Env) (p : Provider) (args : List String) : Prog Unit := do
  Parse env args
  let w ← getWorld
  if !w.cpuStat && !w.diskStat && !w.memStat && !w.netStat && !w.procStat then do
    (fun w => .ret () { w with statusCode := 0 })
    Usage env
  else do
    println
    if (← getWorld).cpuStat then do
      let s ← getCPUStat p
      printOut ("\n" ++ env.bold "CPU:" ++ "\n" ++ s ++ "\n")
    if (← getWorld).diskStat then do
      let s ← getDiskStat p
      printOut ("\n" ++ env.bold "Disk:" ++ "\n" ++ s ++ "\n")
    if (← getWorld).memStat then do
      let s ← getMemStat env p
      printOut ("\n" ++ env.bold "Mem:" ++ "\n" ++ s ++ "\n")
    if (← getWorld).netStat then do
      let s ← getNetStat p
      printOut ("\n" ++ env.bold "Net:" ++ "\n" ++ s ++ "\n")
    if (← getWorld).procStat then do
      let s ← getProcStat env p
      printOut ("\n" ++ env.bold "Proc:" ++ "\n" ++ s ++ "\n")
    println

/-- The process before `main` starts: every package variable holds its zero value and
nothing has been written. -/
def World.init : World :=
  { cpuStat := false, diskStat := false, memStat := false, netStat := false,
    procStat := false, statusCode := 0, stdout := "", stderr := "", queries := [] }

/-- A whole run of the program: the exit code of the process (0 when `main` returns)
and the final state. -/
def run (env : Env) (p : Provider) (args : List String) : Int × World :=
  match main env p args World.init with
  | .ret _ w => (0, w)
  | .exit c w => (c, w)

/-! ## Vocabulary of the specification -/

/-- The five domains of the report. -/
inductive Domain where
  | cpu
  | disk
  | mem
  | net
  | proc
  deriving DecidableEq, Repr

/-- The fixed order of the report sections. -/
def Domain.order : List Domain := [.cpu, .disk, .mem, .net, .proc]

/-- The title that `main` prints in bold above the text of a domain. -/
def Domain.title : Domain → String
  | .cpu => "CPU:"
  | .disk => "Disk:"
  | .mem => "Mem:"
  | .net => "Net:"
  | .proc => "Proc:"

/-- The switch of a domain in a process state. -/
def Domain.enabled (w : World) : Domain → Bool
  | .cpu => w.cpuStat
  | .disk => w.diskStat
  | .mem => w.memStat
  | .net => w.netStat
  | .proc => w.procStat

/-- The collector of a domain. -/
def collector (env : Env) (p : Provider) : Domain → Prog String
  | .cpu => getCPUStat p
  | .disk => getDiskStat p
  | .mem => getMemStat env p
  | .net => getNetStat p
  | .proc => getProcStat env p

/-- The text a collector returns when it is run on its own (the empty text when it
exits instead of returning). -/
def returned (x : Prog String) : String :=
  match x World.init with
  | .ret t _ => t
  | .exit _ _ => ""

/-- Whether a computation, run on its own, exits the process. -/
def exits {α : Type} (x : Prog α) : Bool :=
  match x World.init with
  | .ret _ _ => false
  | .exit _ _ => true

/-- The state in which a computation, run on its own, leaves the process. -/
def finalWorld {α : Type} (x : Prog α) : World :=
  match x World.init with
  | .ret _ w => w
  | .exit _ w => w

/-- What `main` writes to standard output for a domain whose collector returned `text`. -/
def sectionText (env : Env) (d : Domain) (text : String) : String :=
  "\n" ++ env.bold d.title ++ "\n" ++ text ++ "\n"

/-- The domains that stand before `d` in the fixed order. -/
def Domain.before (d : Domain) : List Domain := Domain.order.takeWhile (fun x => x != d)

/-- The line `checkError` writes for a failed query. -/
def errorLine (subject : String) (e : String) : String :=
  "There was an error retreiving " ++ subject ++ " : " ++ e ++ "\n"

/-- The description under which the program reports a failure of a query. -/
def Query.subject : Query → String
  | .cpuInfo => "cpu stat"
  | .partitions => "disk stat"
  | .virtualMemory => "mem stat"
  | .ioCounters => "net stat"
  | .pids => "pid stat"
  | .newProcess _ => "proc stat pid:1"
  | .procName _ => "proc stat name"
  | .procMemoryInfo _ => "proc stat mem info"
  | .procTimes _ => "proc stat times"
  | .procChildren _ => "proc stat children"

/-- The error part of the answer of the metrics library to a query. -/
def Provider.err (p : Provider) : Query → Err
  | .cpuInfo => p.cpuInfo.2
  | .partitions => p.partitions.2
  | .virtualMemory => p.virtualMemory.2
  | .ioCounters => p.ioCounters.2
  | .pids => p.pids.2
  | .newProcess pid => (p.newProcess pid).2
  | .procName pid => (p.procName pid).2
  | .procMemoryInfo pid => (p.procMemoryInfo pid).2
  | .procTimes pid => (p.procTimes pid).2
  | .procChildren pid => (p.procChildren pid).2

/-- Every query of the metrics library succeeds. -/
def Provider.AllSucceed (p : Provider) : Prop := ∀ q, p.err q = none

/-- The state `w` after a computation that wrote and asked what `d` records. -/
def World.extend (w d : World) : World :=
  { w with stdout := w.stdout ++ d.stdout, stderr := w.stderr ++ d.stderr,
           queries := w.queries ++ d.queries }

/-- The outcome `r` of a computation run on its own, replayed after the state `w`. -/
def Result.shift {α : Type} (w : World) : Result α → Result α
  | .ret a d => .ret a (w.extend d)
  | .exit c d => .exit c (w.extend d)

/-- A computation that neither reads nor writes the package variables: its effect is
the same after any state. -/
def Framed {α : Type} (x : Prog α) : Prop := ∀ w, x w = (x World.init).shift w

/-- One `if <switch> ...` statement of `main`: when the domain is enabled its collector
runs and the labeled section is printed. -/
def runStep (env : Env) (p : Provider) (d : Domain) : Prog Unit :=
  fun w =>
    if d.enabled w then
      match collector env p d w with
      | .ret s w1 => .ret () (w1.out (sectionText env d s))
      | .exit c w1 => .exit c w1
    else .ret () w

/-- The statements of `main` for a list of domains, one after the other. -/
def runSteps (env : Env) (p : Provider) : List Domain → Prog Unit
  | [] => pure ()
  | d :: ds => runStep env p d >>= fun _ => runSteps env p ds

/-- The sections that `main` prints for the enabled domains among `ds`, given the
text every collector returns. -/
def reportText (env : Env) (p : Provider) (w : World) (ds : List Domain) : String :=
  String.join ((ds.filter fun d => d.enabled w).map
    fun d => sectionText env d (returned (collector env p d)))

/-- A query fails while the collector of the domain `d` runs. -/
def FailsIn (env : Env) (p : Provider) (d : Domain) : Prop :=
  ∃ q ∈ (finalWorld (collector env p d)).queries, p.err q ≠ none

/-- The state `w` after some sections were printed and some queries were put. -/
def World.reported (w : World) (out : String) (qs : List Query) : World :=
  { w with stdout := w.stdout ++ out, queries := w.queries ++ qs }

/-- The state `w` after a run that printed `out`, put the queries `qs` and wrote `err`
to standard error. -/
def World.aborted (w : World) (out err : String) (qs : List Query) : World :=
  { w with stdout := w.stdout ++ out, stderr := w.stderr ++ err, queries := w.queries ++ qs }

/-- Two states agree on everything but the five switches. -/
def SameOutput (w w1 : World) : Prop :=
  w1.stdout = w.stdout ∧ w1.stderr = w.stderr ∧ w1.queries = w.queries ∧
    w1.statusCode = w.statusCode

/-- The state in which the usage function leaves the process, started in `w`. -/
def World.usage (env : Env) (w : World) : World :=
  (((w.err "\n").out ("Usage of " ++ env.arg0 ++ ":\n")).err env.defaults).err "\n"

/-- The block of the disk report for one partition. -/
def diskBlock (d : PartitionStat) : String :=
  "Device: " ++ d.Device ++ "\nMountpoint: " ++ d.Mountpoint ++ "\n"

/-- The block of the network report for one interface. -/
def netBlock (n : IOCountersStat) : String :=
  "Interface: " ++ n.Name ++ "\nPacketsSent: " ++ toString n.PacketsSent ++
    "\nPacketsRecv: " ++ toString n.PacketsRecv ++ "\n"

/-- The block of the process report: a heading and seven labeled fields. -/
def procBlock (env : Env) (name : String) (mem : MemoryInfoStat) (times : TimesStat)
    (children : Nat) : String :=
  "Init(pid=1):\n" ++
    " Name: " ++ name ++ "\n" ++
    " ResidentSetSize: " ++ toString mem.RSS ++ "\n" ++
    " VirtualMemorySize: " ++ toString mem.VMS ++ "\n" ++
    " SwapSize: " ++ toString mem.Swap ++ "\n" ++
    " UserTime: " ++ env.fmtV times.User ++ "\n" ++
    " SystemTime: " ++ env.fmtV times.System ++ "\n" ++
    " Children: " ++ toString children ++ "\n"

/-- An environment for the examples: terminal styling switched off, and the flag table
as the flag package prints it. -/
def exampleEnv : Env where
  arg0 := "systemstat"
  bold := fun s => s
  fmtF := fun _ => "0.000000"
  fmtV := fun _ => "0"
  defaults := "  -a\t\n  -all\n    \tSame as --ethernet, --public.\n  -c\t\n  -cpu\n    \tCPU stats\n" ++
    "  -d\t\n  -disk\n    \tDisk stats\n  -m\t\n  -mem\n    \tMemory stats\n" ++
    "  -n\t\n  -net\n    \tNetwork stats\n  -p\t\n  -proc\n    \tProcess stats\n" ++
    "  -v\t\n  -version\n    \tPrint version\n"
  quote := fun s => String.singleton (Char.ofNat 34) ++ s ++ String.singleton (Char.ofNat 34)
  parseErr := fun _ => "parse error"

/-- A metrics library for the examples, every query of which succeeds. -/
def exampleProvider : Provider where
  cpuInfo := ([⟨"Example CPU", 4⟩], none)
  partitions := ([⟨"/dev/sda1", "/", "ext4"⟩, ⟨"auto", "/auto", "autofs"⟩], none)
  virtualMemory := (⟨8000000000, 2000000000, ⟨0⟩⟩, none)
  ioCounters := ([⟨"eth0", 10, 5⟩, ⟨"lo", 0, 0⟩], none)
  pids := ([1, 50, 200], none)
  newProcess := fun pid => (pid, none)
  procName := fun _ => ("init", none)
  procMemoryInfo := fun _ => (⟨4096, 8192, 0⟩, none)
  procTimes := fun _ => (⟨⟨0⟩, ⟨0⟩⟩, none)
  procChildren := fun _ => ([50, 200], none)

/-- The example library with a single partition, of type autofs. -/
def autofsProvider : Provider :=
  { exampleProvider with partitions := ([⟨"auto", "/auto", "autofs"⟩], none) }

/-- The example library without a process 1. -/
def noInitProvider : Provider :=
  { exampleProvider with pids := ([50, 200], none) }

/-- The example library with a failing network query. -/
def netDownProvider : Provider :=
  { exampleProvider with ioCounters := ([], some "permission denied") }

/-- An argument that the flag parser takes as a setting of one of the five domain
flags or of the all flag: a registered name other than the version flag, with a value
(if one is given to a domain flag) that is a boolean. -/
def acceptedFlag (s : String) : Bool :=
  match scan s with
  | .named name value =>
    match formal name with
    | some .version => false
    | some .all => true
    | some _ =>
      match value with
      | none => true
      | some v => (parseBool v).isSome
    | none => false
  | _ => false

/-- An argument that names the version flag (`-v`, `--version`, with or without a
value). -/
def isVersionFlag (s : String) : Bool :=
  match scan s with
  | .named name _ => formal name == some .version
  | _ => false

/-- An argument that has the form of a flag whose name is neither registered nor a help
request; the result is the name. -/
def unknownFlag (s : String) : Option String :=
  match scan s with
  | .named name _ =>
    match formal name with
    | none => if name = "help" ∨ name = "h" then none else some name
    | some _ => none
  | _ => none

/-- The state with all five switches set. -/
def World.allOn (w : World) : World :=
  { w with cpuStat := true, diskStat := true, memStat := true, netStat := true,
           procStat := true }

/-- The outcome of a collector run on its own is one of two kinds: it returned after
successful queries only, having written nothing; or it exited with code 1 right after a
failed query, having written exactly the error line of that query. -/
def Sound {α : Type} (p : Provider) : Result α → Prop
  | .ret _ w1 => w1.stdout = "" ∧ w1.stderr = "" ∧ ∀ q ∈ w1.queries, p.err q = none
  | .exit c w1 => c = 1 ∧ w1.stdout = "" ∧
      ∃ qs q e, w1.queries = qs ++ [q] ∧ (∀ x ∈ qs, p.err x = none) ∧ p.err q = some e ∧
        w1.stderr = errorLine q.subject e


/-- A state in which nothing was written and every query so far succeeded. -/
def Clean (p : Provider) (w : World) : Prop :=
  w.stdout = "" ∧ w.stderr = "" ∧ ∀ q ∈ w.queries, p.err q = none

/-! ## Theorems -/

set_option maxRecDepth 100000

@[simp] theorem bind_apply {α β : Type} (x : Prog α) (f : α → Prog β) (w : World) :
    (x >>= f) w = match x w with
      | .ret a w1 => f a w1
      | .exit c w1 => .exit c w1 := rfl

@[simp] theorem pure_apply {α : Type} (a : α) (w : World) :
    (pure a : Prog α) w = .ret a w := rfl

@[simp] theorem call_apply {α : Type} (q : Query) (r : α × Err) (w : World) :
    call q r w = .ret r (w.ask q) := rfl

@[simp] theorem printOut_apply (s : String) (w : World) : printOut s w = .ret () (w.out s) := rfl

@[simp] theorem printErr_apply (s : String) (w : World) : printErr s w = .ret () (w.err s) := rfl

@[simp] theorem println_apply (w : World) : println w = .ret () (w.err "\n") := rfl

@[simp] theorem osExit_apply {α : Type} (c : Int) (w : World) :
    (osExit c : Prog α) w = .exit c w := rfl

@[simp] theorem getWorld_apply (w : World) : getWorld w = .ret w w := rfl

@[simp] theorem ite_prog_apply {α : Type} (c : Prop) [Decidable c] (x y : Prog α) (w : World) :
    (if c then x else y) w = if c then x w else y w := by
  split <;> rfl

theorem errorLine_eq (m e : String) :
    "There was an error retreiving" ++ " " ++ m ++ " " ++ ":" ++ " " ++ e ++ "\n" = errorLine m e := by
  have h1 : "There was an error retreiving" ++ " " = "There was an error retreiving " := by decide
  have h2 : " " ++ (":" ++ " ") = " : " := by decide
  simp only [errorLine, h1, String.append_assoc]
  rw [← String.append_assoc " " ":" , ← String.append_assoc (" " ++ ":") " "]
  rw [String.append_assoc " " ":" " ", h2]

@[simp] theorem checkError_none (m : String) (w : World) :
    checkError none m w = .ret () w := rfl

@[simp] theorem checkError_some (e m : String) (w : World) :
    checkError (some e) m w = .exit 1 (w.err (errorLine m e)) := by
  rw [← errorLine_eq]; rfl

theorem World.extend_extend (w a b : World) :
    (w.extend a).extend b = w.extend (a.extend b) := by
  simp [World.extend, String.append_assoc]

theorem World.extend_init (w : World) : w.extend World.init = w := by
  simp [World.extend, World.init]

theorem World.extend_ask (w : World) (q : Query) : w.extend (World.init.ask q) = w.ask q := by
  simp [World.extend, World.init, World.ask]

theorem World.extend_err (w : World) (s : String) : w.extend (World.init.err s) = w.err s := by
  simp [World.extend, World.init, World.err]

theorem World.extend_out (w : World) (s : String) : w.extend (World.init.out s) = w.out s := by
  simp [World.extend, World.init, World.out]

theorem framed_pure {α : Type} (a : α) : Framed (pure a : Prog α) := by
  intro w; simp [Result.shift, World.extend_init]

theorem framed_call {α : Type} (q : Query) (r : α × Err) : Framed (call q r) := by
  intro w; simp [Result.shift, World.extend_ask]

theorem framed_printErr (s : String) : Framed (printErr s) := by
  intro w; simp [Result.shift, World.extend_err]

theorem framed_printOut (s : String) : Framed (printOut s) := by
  intro w; simp [Result.shift, World.extend_out]

theorem framed_osExit {α : Type} (c : Int) : Framed (osExit c : Prog α) := by
  intro w; simp [Result.shift, World.extend_init]

theorem shift_shift {α : Type} (w a : World) (r : Result α) :
    Result.shift (w.extend a) r = Result.shift w (Result.shift a r) := by
  cases r <;> simp [Result.shift, World.extend_extend]

theorem framed_bind {α β : Type} {x : Prog α} {f : α → Prog β}
    (hx : Framed x) (hf : ∀ a, Framed (f a)) : Framed (x >>= f) := by
  intro w
  simp only [bind_apply]
  rw [hx w]
  cases h : x World.init with
  | ret a d =>
    simp only [Result.shift]
    rw [hf a (w.extend d), hf a d, shift_shift]
    cases f a World.init <;> rfl
  | exit c d => simp [Result.shift]

theorem framed_checkError (err : Err) (m : String) : Framed (checkError err m) := by
  cases err with
  | none => exact framed_pure ()
  | some e => exact framed_bind (framed_printErr _) (fun _ => framed_osExit 1)

theorem framed_ite {α : Type} (c : Prop) [Decidable c] {x y : Prog α}
    (hx : Framed x) (hy : Framed y) : Framed (if c then x else y) := by
  split <;> assumption

theorem framed_getCPUStat (p : Provider) : Framed (getCPUStat p) := by
  unfold getCPUStat
  refine framed_bind (framed_call _ _) (fun ⟨cpus, err⟩ => ?_)
  refine framed_bind (framed_checkError _ _) (fun _ => ?_)
  exact framed_ite _ (framed_pure _) (framed_pure _)

theorem framed_getDiskStat (p : Provider) : Framed (getDiskStat p) := by
  unfold getDiskStat
  refine framed_bind (framed_call _ _) (fun ⟨disks, err⟩ => ?_)
  refine framed_bind (framed_checkError _ _) (fun _ => ?_)
  exact framed_ite _ (framed_pure _) (framed_pure _)

theorem framed_getMemStat (env : Env) (p : Provider) : Framed (getMemStat env p) := by
  unfold getMemStat
  refine framed_bind (framed_call _ _) (fun ⟨mem, err⟩ => ?_)
  exact framed_bind (framed_checkError _ _) (fun _ => framed_pure _)

theorem framed_getNetStat (p : Provider) : Framed (getNetStat p) := by
  unfold getNetStat
  refine framed_bind (framed_call _ _) (fun ⟨nets, err⟩ => ?_)
  refine framed_bind (framed_checkError _ _) (fun _ => ?_)
  exact framed_ite _ (framed_pure _) (framed_pure _)

theorem framed_procLoop (env : Env) (p : Provider) (pids : List Int) (s : String) :
    Framed (procLoop env p pids s) := by
  induction pids with
  | nil => exact framed_pure _
  | cons pid rest ih =>
    unfold procLoop
    refine framed_ite _ ?_ ih
    refine framed_bind (framed_call _ _) (fun ⟨proc, err⟩ => ?_)
    refine framed_bind (framed_checkError _ _) (fun _ => ?_)
    refine framed_bind (framed_call _ _) (fun ⟨name, err⟩ => ?_)
    refine framed_bind (framed_checkError _ _) (fun _ => ?_)
    refine framed_bind (framed_call _ _) (fun ⟨mem, err⟩ => ?_)
    refine framed_bind (framed_checkError _ _) (fun _ => ?_)
    refine framed_bind (framed_call _ _) (fun ⟨times, err⟩ => ?_)
    refine framed_bind (framed_checkError _ _) (fun _ => ?_)
    refine framed_bind (framed_call _ _) (fun ⟨children, err⟩ => ?_)
    exact framed_bind (framed_checkError _ _) (fun _ => framed_pure _)

theorem framed_getProcStat (env : Env) (p : Provider) : Framed (getProcStat env p) := by
  unfold getProcStat
  refine framed_bind (framed_call _ _) (fun ⟨pids, err⟩ => ?_)
  refine framed_bind (framed_checkError _ _) (fun _ => ?_)
  exact framed_ite _ (framed_pure _) (framed_procLoop env p pids _)

theorem framed_collector (env : Env) (p : Provider) (d : Domain) : Framed (collector env p d) := by
  cases d
  · exact framed_getCPUStat p
  · exact framed_getDiskStat p
  · exact framed_getMemStat env p
  · exact framed_getNetStat p
  · exact framed_getProcStat env p

theorem clean_init (p : Provider) : Clean p World.init := by
  simp [Clean, World.init]

theorem clean_ask {p : Provider} {w : World} (h : Clean p w) {q : Query} (hq : p.err q = none) :
    Clean p (w.ask q) := by
  obtain ⟨h1, h2, h3⟩ := h
  refine ⟨h1, h2, ?_⟩
  intro x hx
  simp only [World.ask, List.mem_append, List.mem_singleton] at hx
  rcases hx with hx | hx
  · exact h3 x hx
  · rw [hx]; exact hq

theorem sound_ret {α : Type} {p : Provider} {w : World} (h : Clean p w) (a : α) :
    Sound p (.ret a w) := h

theorem sound_exit {α : Type} {p : Provider} {w : World} (h : Clean p w) {q : Query} {e : String}
    (hq : p.err q = some e) :
    Sound p (.exit 1 ((w.ask q).err (errorLine q.subject e)) : Result α) := by
  obtain ⟨h1, h2, h3⟩ := h
  refine ⟨rfl, h1, w.queries, q, e, rfl, h3, hq, ?_⟩
  simp [World.ask, World.err, h2]

theorem sound_getCPUStat (p : Provider) : Sound p (getCPUStat p World.init) := by
  rcases h : p.cpuInfo with ⟨v, _ | e⟩
  · have hq : p.err .cpuInfo = none := by simp [Provider.err, h]
    simp only [getCPUStat, bind_apply, call_apply, h, checkError_none, ite_prog_apply, pure_apply]
    split <;> exact sound_ret (clean_ask (clean_init p) hq) _
  · have hq : p.err .cpuInfo = some e := by simp [Provider.err, h]
    simp only [getCPUStat, bind_apply, call_apply, h, checkError_some]
    exact sound_exit (clean_init p) hq

theorem sound_getDiskStat (p : Provider) : Sound p (getDiskStat p World.init) := by
  rcases h : p.partitions with ⟨v, _ | e⟩
  · have hq : p.err .partitions = none := by simp [Provider.err, h]
    simp only [getDiskStat, bind_apply, call_apply, h, checkError_none, ite_prog_apply, pure_apply]
    split <;> exact sound_ret (clean_ask (clean_init p) hq) _
  · have hq : p.err .partitions = some e := by simp [Provider.err, h]
    simp only [getDiskStat, bind_apply, call_apply, h, checkError_some]
    exact sound_exit (clean_init p) hq

theorem sound_getMemStat (env : Env) (p : Provider) : Sound p (getMemStat env p World.init) := by
  rcases h : p.virtualMemory with ⟨v, _ | e⟩
  · have hq : p.err .virtualMemory = none := by simp [Provider.err, h]
    simp only [getMemStat, bind_apply, call_apply, h, checkError_none, pure_apply]
    exact sound_ret (clean_ask (clean_init p) hq) _
  · have hq : p.err .virtualMemory = some e := by simp [Provider.err, h]
    simp only [getMemStat, bind_apply, call_apply, h, checkError_some]
    exact sound_exit (clean_init p) hq

theorem sound_getNetStat (p : Provider) : Sound p (getNetStat p World.init) := by
  rcases h : p.ioCounters with ⟨v, _ | e⟩
  · have hq : p.err .ioCounters = none := by simp [Provider.err, h]
    simp only [getNetStat, bind_apply, call_apply, h, checkError_none, ite_prog_apply, pure_apply]
    split <;> exact sound_ret (clean_ask (clean_init p) hq) _
  · have hq : p.err .ioCounters = some e := by simp [Provider.err, h]
    simp only [getNetStat, bind_apply, call_apply, h, checkError_some]
    exact sound_exit (clean_init p) hq

theorem sound_procLoop (env : Env) (p : Provider) (pids : List Int) (s : String) (w : World)
    (hw : Clean p w) : Sound p (procLoop env p pids s w) := by
  induction pids with
  | nil => exact sound_ret hw _
  | cons pid rest ih =>
    unfold procLoop
    by_cases hp : pid = 1
    · simp only [hp, if_true]
      rcases h1 : p.newProcess 1 with ⟨proc, _ | e⟩
      swap
      · have hq : p.err (.newProcess 1) = some e := by simp [Provider.err, h1]
        simp only [bind_apply, call_apply, h1, checkError_some]
        exact sound_exit hw hq
      have hq1 : p.err (.newProcess 1) = none := by simp [Provider.err, h1]
      have c1 := clean_ask hw hq1
      rcases h2 : p.procName proc with ⟨name, _ | e⟩
      swap
      · have hq : p.err (.procName proc) = some e := by simp [Provider.err, h2]
        simp only [bind_apply, call_apply, h1, h2, checkError_none, checkError_some]
        exact sound_exit c1 hq
      have hq2 : p.err (.procName proc) = none := by simp [Provider.err, h2]
      have c2 := clean_ask c1 hq2
      rcases h3 : p.procMemoryInfo proc with ⟨mem, _ | e⟩
      swap
      · have hq : p.err (.procMemoryInfo proc) = some e := by simp [Provider.err, h3]
        simp only [bind_apply, call_apply, h1, h2, h3, checkError_none, checkError_some]
        exact sound_exit c2 hq
      have hq3 : p.err (.procMemoryInfo proc) = none := by simp [Provider.err, h3]
      have c3 := clean_ask c2 hq3
      rcases h4 : p.procTimes proc with ⟨times, _ | e⟩
      swap
      · have hq : p.err (.procTimes proc) = some e := by simp [Provider.err, h4]
        simp only [bind_apply, call_apply, h1, h2, h3, h4, checkError_none, checkError_some]
        exact sound_exit c3 hq
      have hq4 : p.err (.procTimes proc) = none := by simp [Provider.err, h4]
      have c4 := clean_ask c3 hq4
      rcases h5 : p.procChildren proc with ⟨children, _ | e⟩
      swap
      · have hq : p.err (.procChildren proc) = some e := by simp [Provider.err, h5]
        simp only [bind_apply, call_apply, h1, h2, h3, h4, h5, checkError_none, checkError_some]
        exact sound_exit c4 hq
      have hq5 : p.err (.procChildren proc) = none := by simp [Provider.err, h5]
      have c5 := clean_ask c4 hq5
      simp only [bind_apply, call_apply, h1, h2, h3, h4, h5, checkError_none, pure_apply]
      exact sound_ret c5 _
    · simp only [hp, if_false]
      exact ih

theorem sound_getProcStat (env : Env) (p : Provider) : Sound p (getProcStat env p World.init) := by
  rcases h : p.pids with ⟨v, _ | e⟩
  · have hq : p.err .pids = none := by simp [Provider.err, h]
    simp only [getProcStat, bind_apply, call_apply, h, checkError_none, ite_prog_apply, pure_apply]
    split
    · exact sound_ret (clean_ask (clean_init p) hq) _
    · exact sound_procLoop env p v _ _ (clean_ask (clean_init p) hq)
  · have hq : p.err .pids = some e := by simp [Provider.err, h]
    simp only [getProcStat, bind_apply, call_apply, h, checkError_some]
    exact sound_exit (clean_init p) hq

theorem sound_collector (env : Env) (p : Provider) (d : Domain) :
    Sound p (collector env p d World.init) := by
  cases d
  · exact sound_getCPUStat p
  · exact sound_getDiskStat p
  · exact sound_getMemStat env p
  · exact sound_getNetStat p
  · exact sound_getProcStat env p

theorem step_cpu (env : Env) (p : Provider) (k : Prog Unit) :
    (do if (← getWorld).cpuStat then do
          let s ← getCPUStat p
          printOut ("\n" ++ env.bold "CPU:" ++ "\n" ++ s ++ "\n")
        k : Prog Unit)
      = (runStep env p .cpu >>= fun _ => k) := by
  funext w
  simp only [bind_apply, getWorld_apply, runStep, Domain.enabled, collector]
  cases w.cpuStat
  · rfl
  · simp only [if_true, bind_apply, printOut_apply]
    cases getCPUStat p w <;> rfl

theorem step_disk (env : Env) (p : Provider) (k : Prog Unit) :
    (do if (← getWorld).diskStat then do
          let s ← getDiskStat p
          printOut ("\n" ++ env.bold "Disk:" ++ "\n" ++ s ++ "\n")
        k : Prog Unit)
      = (runStep env p .disk >>= fun _ => k) := by
  funext w
  simp only [bind_apply, getWorld_apply, runStep, Domain.enabled, collector]
  cases w.diskStat
  · rfl
  · simp only [if_true, bind_apply, printOut_apply]
    cases getDiskStat p w <;> rfl

theorem step_mem (env : Env) (p : Provider) (k : Prog Unit) :
    (do if (← getWorld).memStat then do
          let s ← getMemStat env p
          printOut ("\n" ++ env.bold "Mem:" ++ "\n" ++ s ++ "\n")
        k : Prog Unit)
      = (runStep env p .mem >>= fun _ => k) := by
  funext w
  simp only [bind_apply, getWorld_apply, runStep, Domain.enabled, collector]
  cases w.memStat
  · rfl
  · simp only [if_true, bind_apply, printOut_apply]
    cases getMemStat env p w <;> rfl

theorem step_net (env : Env) (p : Provider) (k : Prog Unit) :
    (do if (← getWorld).netStat then do
          let s ← getNetStat p
          printOut ("\n" ++ env.bold "Net:" ++ "\n" ++ s ++ "\n")
        k : Prog Unit)
      = (runStep env p .net >>= fun _ => k) := by
  funext w
  simp only [bind_apply, getWorld_apply, runStep, Domain.enabled, collector]
  cases w.netStat
  · rfl
  · simp only [if_true, bind_apply, printOut_apply]
    cases getNetStat p w <;> rfl

theorem step_proc (env : Env) (p : Provider) (k : Prog Unit) :
    (do if (← getWorld).procStat then do
          let s ← getProcStat env p
          printOut ("\n" ++ env.bold "Proc:" ++ "\n" ++ s ++ "\n")
        k : Prog Unit)
      = (runStep env p .proc >>= fun _ => k) := by
  funext w
  simp only [bind_apply, getWorld_apply, runStep, Domain.enabled, collector]
  cases w.procStat
  · rfl
  · simp only [if_true, bind_apply, printOut_apply]
    cases getProcStat env p w <;> rfl

theorem runSteps_order (env : Env) (p : Provider) (k : Prog Unit) (w : World) :
    (runStep env p .cpu >>= fun _ => runStep env p .disk >>= fun _ => runStep env p .mem >>= fun _ =>
      runStep env p .net >>= fun _ => runStep env p .proc >>= fun _ => k) w
    = match runSteps env p Domain.order w with
      | .ret _ w1 => k w1
      | .exit c w1 => .exit c w1 := by
  simp only [Domain.order, runSteps, bind_apply, pure_apply]
  cases runStep env p .cpu w with
  | exit c w1 => rfl
  | ret _ w1 =>
    simp only
    cases runStep env p .disk w1 with
    | exit c w2 => rfl
    | ret _ w2 =>
      simp only
      cases runStep env p .mem w2 with
      | exit c w3 => rfl
      | ret _ w3 =>
        simp only
        cases runStep env p .net w3 with
        | exit c w4 => rfl
        | ret _ w4 =>
          simp only
          cases runStep env p .proc w4 <;> rfl

theorem main_eq (env : Env) (p : Provider) (args : List String) (w0 : World) :
    main env p args w0 =
      match Parse env args w0 with
      | .exit c w => .exit c w
      | .ret _ w =>
        if (Domain.order.any fun d => d.enabled w) then
          match runSteps env p Domain.order (w.err "\n") with
          | .ret _ w1 => .ret () (w1.err "\n")
          | .exit c w1 => .exit c w1
        else Usage env { w with statusCode := 0 } := by
  unfold main
  simp only [step_cpu, step_disk, step_mem, step_net, step_proc]
  rw [bind_apply]
  cases Parse env args w0 with
  | exit c w => rfl
  | ret u w =>
    simp only
    rw [bind_apply, getWorld_apply]
    simp only [ite_prog_apply]
    rw [bind_apply (println), println_apply]
    simp only [runSteps_order, println_apply]
    rcases w with ⟨c, d, m, n, pr, sc, so, se, q⟩
    cases c <;> cases d <;> cases m <;> cases n <;> cases pr <;> rfl

theorem exits_false_of_allSucceed (env : Env) (p : Provider) (d : Domain) (hp : p.AllSucceed) :
    exits (collector env p d) = false := by
  have hs := sound_collector env p d
  unfold exits
  cases h : collector env p d World.init with
  | ret t w1 => rfl
  | exit c w1 =>
    rw [h] at hs
    obtain ⟨_, _, qs, q, e, _, _, hq, _⟩ := hs
    rw [hp q] at hq
    cases hq

theorem failsIn_iff_exits (env : Env) (p : Provider) (d : Domain) :
    FailsIn env p d ↔ exits (collector env p d) = true := by
  have hs := sound_collector env p d
  unfold FailsIn finalWorld exits
  cases h : collector env p d World.init with
  | ret t w1 =>
    rw [h] at hs
    obtain ⟨_, _, hq⟩ := hs
    constructor
    · rintro ⟨q, hq1, hq2⟩
      exact absurd (hq q hq1) hq2
    · intro hx; cases hx
  | exit c w1 =>
    rw [h] at hs
    obtain ⟨_, _, qs, q, e, h1, _, hq, _⟩ := hs
    constructor
    · intro _; rfl
    · intro _
      refine ⟨q, ?_, ?_⟩
      · simp only [h1]; simp
      · rw [hq]; simp

theorem runStep_disabled (env : Env) (p : Provider) (d : Domain) (w : World)
    (h : d.enabled w = false) : runStep env p d w = .ret () w := by
  simp [runStep, h]

theorem runStep_ret (env : Env) (p : Provider) (d : Domain) (w : World)
    (h : d.enabled w = true) (hx : exits (collector env p d) = false) :
    ∃ qs, runStep env p d w = .ret ()
      (w.reported (sectionText env d (returned (collector env p d))) qs) := by
  have hs := sound_collector env p d
  have hf := framed_collector env p d w
  unfold exits at hx
  unfold returned
  cases hc : collector env p d World.init with
  | exit c w1 => rw [hc] at hx; cases hx
  | ret t w1 =>
    rw [hc] at hs hf
    obtain ⟨h1, h2, _⟩ := hs
    refine ⟨w1.queries, ?_⟩
    simp only [runStep, h, if_true, hf, Result.shift]
    simp [World.extend, World.out, World.reported, h1, h2]

theorem runStep_exit (env : Env) (p : Provider) (d : Domain) (w : World)
    (h : d.enabled w = true) (hx : exits (collector env p d) = true) :
    ∃ qs q e, p.err q = some e ∧ runStep env p d w = .exit 1
      (w.aborted "" (errorLine q.subject e) (qs ++ [q])) := by
  have hs := sound_collector env p d
  have hf := framed_collector env p d w
  unfold exits at hx
  cases hc : collector env p d World.init with
  | ret t w1 => rw [hc] at hx; cases hx
  | exit c w1 =>
    rw [hc] at hs hf
    obtain ⟨h0, h1, qs, q, e, h2, _, hq, h3⟩ := hs
    refine ⟨qs, q, e, hq, ?_⟩
    simp only [runStep, h, if_true, hf, Result.shift]
    simp [World.extend, World.aborted, h0, h1, h2, h3]

theorem enabled_reported (w : World) (so : String) (qs : List Query) (d : Domain) :
    d.enabled (w.reported so qs) = d.enabled w := by
  cases d <;> rfl

theorem join_cons (a : String) (l : List String) : String.join (a :: l) = a ++ String.join l := by
  apply String.ext
  simp [String.data_join, String.data_append]

theorem reportText_cons (env : Env) (p : Provider) (w : World) (d : Domain) (ds : List Domain) :
    reportText env p w (d :: ds) =
      (if d.enabled w then sectionText env d (returned (collector env p d)) else "") ++
        reportText env p w ds := by
  unfold reportText
  cases h : d.enabled w
  · simp [List.filter_cons, h]
  · simp [List.filter_cons, h, join_cons]

theorem reportText_reported (env : Env) (p : Provider) (w : World) (so : String)
    (qs : List Query) (ds : List Domain) :
    reportText env p (w.reported so qs) ds = reportText env p w ds := by
  unfold reportText
  simp only [enabled_reported]

theorem reported_nil (w : World) : w.reported "" [] = w := by
  simp [World.reported]

theorem reported_reported (w : World) (a b : String) (q1 q2 : List Query) :
    (w.reported a q1).reported b q2 = w.reported (a ++ b) (q1 ++ q2) := by
  simp [World.reported, String.append_assoc]

theorem reported_aborted (w : World) (a b e : String) (q1 q2 : List Query) :
    (w.reported a q1).aborted b e q2 = w.aborted (a ++ b) e (q1 ++ q2) := by
  simp [World.reported, World.aborted, String.append_assoc]

theorem runSteps_ret (env : Env) (p : Provider) (ds : List Domain) (w : World)
    (h : ∀ d ∈ ds, d.enabled w = true → exits (collector env p d) = false) :
    ∃ qs, runSteps env p ds w = .ret () (w.reported (reportText env p w ds) qs) := by
  induction ds generalizing w with
  | nil => exact ⟨[], by simp [runSteps, reportText, String.join, reported_nil]⟩
  | cons d ds ih =>
    simp only [runSteps, bind_apply, reportText_cons]
    cases hd : d.enabled w
    · rw [runStep_disabled env p d w hd]
      obtain ⟨qs, hqs⟩ := ih w (fun x hx => h x (List.mem_cons_of_mem _ hx))
      exact ⟨qs, by simp [hqs]⟩
    · obtain ⟨q1, hq1⟩ := runStep_ret env p d w hd (h d (List.mem_cons_self _ _) hd)
      rw [hq1]
      obtain ⟨qs, hqs⟩ := ih (w.reported (sectionText env d (returned (collector env p d))) q1)
        (fun x hx he => h x (List.mem_cons_of_mem _ hx) (by rw [enabled_reported] at he; exact he))
      refine ⟨q1 ++ qs, ?_⟩
      simp only [hqs, reportText_reported, reported_reported, if_true]

theorem runSteps_append (env : Env) (p : Provider) (l1 l2 : List Domain) (w : World) :
    runSteps env p (l1 ++ l2) w =
      match runSteps env p l1 w with
      | .ret _ w1 => runSteps env p l2 w1
      | .exit c w1 => .exit c w1 := by
  induction l1 generalizing w with
  | nil => rfl
  | cons d ds ih =>
    simp only [List.cons_append, runSteps, bind_apply]
    cases runStep env p d w with
    | exit c w1 => rfl
    | ret u w1 => exact ih w1

theorem runSteps_exit (env : Env) (p : Provider) (pre post : List Domain) (d : Domain)
    (w : World)
    (hpre : ∀ x ∈ pre, x.enabled w = true → exits (collector env p x) = false)
    (hd : d.enabled w = true) (hx : exits (collector env p d) = true) :
    ∃ qs q e, p.err q = some e ∧ runSteps env p (pre ++ d :: post) w = .exit 1
      (w.aborted (reportText env p w pre) (errorLine q.subject e) (qs ++ [q])) := by
  obtain ⟨q1, hq1⟩ := runSteps_ret env p pre w hpre
  obtain ⟨qs, q, e, hq, hstep⟩ := runStep_exit env p d
    (w.reported (reportText env p w pre) q1) (by rw [enabled_reported]; exact hd) hx
  refine ⟨q1 ++ qs, q, e, hq, ?_⟩
  rw [runSteps_append, hq1]
  simp only [runSteps, bind_apply, hstep, reported_aborted, String.append_empty, List.append_assoc]

theorem Usage_apply (env : Env) (w : World) :
    Usage env w = .exit w.statusCode (w.usage env) := rfl

theorem failf_apply (env : Env) (msg : String) (w : World) :
    failf env msg w = .exit w.statusCode ((w.err (msg ++ "\n")).usage env) := rfl

theorem sameOutput_refl (w : World) : SameOutput w w := ⟨rfl, rfl, rfl, rfl⟩

theorem sameOutput_trans {a b c : World} (h1 : SameOutput a b) (h2 : SameOutput b c) :
    SameOutput a c :=
  ⟨h2.1.trans h1.1, h2.2.1.trans h1.2.1, h2.2.2.1.trans h1.2.2.1, h2.2.2.2.trans h1.2.2.2⟩

theorem assign_apply_sameOutput (v : FlagVar) (b : Bool) (w : World) :
    ∃ w1, assign v b w = .ret () w1 ∧ SameOutput w w1 := by
  cases v <;> exact ⟨_, rfl, rfl, rfl, rfl, rfl⟩

theorem set_ret (env : Env) (v : FlagVar) (value : String) (w w1 : World) (err : Err)
    (h : v.Set env value w = .ret err w1) : SameOutput w w1 := by
  cases v
  case all =>
    simp only [FlagVar.Set] at h
    cases h
    exact ⟨rfl, rfl, rfl, rfl⟩
  case version =>
    simp [FlagVar.Set] at h
  all_goals
    simp only [FlagVar.Set] at h
    cases hb : parseBool value with
    | none =>
      rw [hb] at h
      simp only [bind_apply, assign, pure_apply] at h
      cases h
      exact ⟨rfl, rfl, rfl, rfl⟩
    | some b =>
      rw [hb] at h
      simp only [bind_apply, assign, pure_apply] at h
      cases h
      exact ⟨rfl, rfl, rfl, rfl⟩

theorem setFlag_ret (env : Env) (name : String) (flag : FlagVar) (value : Option String)
    (w w1 : World) (step : Step) (h : setFlag env name flag value w = .ret step w1) :
    SameOutput w w1 ∧ step = .seen := by
  cases value with
  | some value =>
    simp only [setFlag, bind_apply] at h
    cases hset : flag.Set env value w with
    | exit c w2 => rw [hset] at h; cases h
    | ret err w2 =>
      rw [hset] at h
      cases err with
      | none =>
        simp only [pure_apply] at h
        cases h
        exact ⟨set_ret env _ _ _ _ _ hset, rfl⟩
      | some e =>
        simp only [bind_apply, failf_apply] at h
        cases h
  | none =>
    simp only [setFlag, bind_apply] at h
    cases hset : flag.Set env "true" w with
    | exit c w2 => rw [hset] at h; cases h
    | ret err w2 =>
      rw [hset] at h
      cases err with
      | none =>
        simp only [pure_apply] at h
        cases h
        exact ⟨set_ret env _ _ _ _ _ hset, rfl⟩
      | some e =>
        simp only [bind_apply, failf_apply] at h
        cases h

theorem parseOne_ret (env : Env) (s : String) (w w1 : World) (step : Step)
    (h : parseOne env s w = .ret step w1) :
    SameOutput w w1 ∧ (step = .seen ∨ (step = .stop ∧ w1 = w)) := by
  unfold parseOne at h
  cases hs : scan s with
  | stop =>
    simp only [hs, pure_apply] at h
    cases h; exact ⟨sameOutput_refl _, Or.inr ⟨rfl, rfl⟩⟩
  | bad =>
    simp only [hs, bind_apply, failf_apply] at h
    cases h
  | named name value =>
    simp only [hs] at h
    cases hf : formal name with
    | none =>
      simp only [hf] at h
      by_cases hh : name = "help" ∨ name = "h"
      · simp only [if_pos hh, bind_apply, Usage_apply] at h
        cases h
      · simp only [if_neg hh, bind_apply, failf_apply] at h
        cases h
    | some flag =>
      simp only [hf] at h
      have := setFlag_ret env _ flag _ w w1 step h
      exact ⟨this.1, Or.inl this.2⟩

theorem Parse_ret (env : Env) (args : List String) (w w1 : World)
    (h : Parse env args w = .ret () w1) : SameOutput w w1 := by
  induction args generalizing w with
  | nil => cases h; exact sameOutput_refl _
  | cons s rest ih =>
    simp only [Parse, bind_apply] at h
    cases hs : parseOne env s w with
    | exit c w2 => rw [hs] at h; cases h
    | ret step w2 =>
      rw [hs] at h
      have h1 := (parseOne_ret env s w w2 step hs).1
      cases step with
      | seen => exact sameOutput_trans h1 (ih w2 h)
      | stop => simp only [pure_apply] at h; cases h; exact h1
      | help => cases h
      | failed => cases h

theorem stringsJoin_eq_intercalate (l : List String) (sep : String) :
    stringsJoin l sep = sep.intercalate l := by
  cases l with
  | nil => rfl
  | cons a rest =>
    have h : ∀ (r : List String) (b : String),
        r.foldl (fun b s => b ++ sep ++ s) b = String.intercalate.go b sep r := by
      intro r
      induction r with
      | nil => intro b; rfl
      | cons x xs ih => intro b; simp [String.intercalate.go, ih]
    cases rest with
    | nil => rfl
    | cons x xs => simp [stringsJoin, String.intercalate, h]

theorem cpu_loop (l : List InfoStat) (acc : List String) :
    l.foldl (fun acc cpu =>
      acc ++ ["ModelName: " ++ cpu.ModelName ++ "\nCores: " ++ toString cpu.Cores ++ "\n"]) acc
    = acc ++ l.map (fun cpu =>
        "ModelName: " ++ cpu.ModelName ++ "\nCores: " ++ toString cpu.Cores ++ "\n") := by
  induction l generalizing acc with
  | nil => simp
  | cons a t ih => simp only [List.foldl_cons, ih, List.map_cons, List.append_assoc,
      List.singleton_append]

theorem disk_loop (l : List PartitionStat) (acc : List String) :
    l.foldl (fun acc disk =>
      if disk.Fstype ≠ "autofs" then
        acc ++ ["Device: " ++ disk.Device ++ "\nMountpoint: " ++ disk.Mountpoint ++ "\n"]
      else acc) acc
    = acc ++ (l.filter (fun d => d.Fstype ≠ "autofs")).map diskBlock := by
  induction l generalizing acc with
  | nil => simp
  | cons a t ih =>
    simp only [List.foldl_cons, ih]
    by_cases h : a.Fstype = "autofs" <;> simp [h, List.filter_cons, diskBlock]

theorem net_loop (l : List IOCountersStat) (acc : List String) :
    l.foldl (fun acc net =>
      if net.PacketsSent > 0 ∧ net.PacketsRecv > 0 then
        acc ++ ["Interface: " ++ net.Name ++ "\nPacketsSent: " ++ toString net.PacketsSent ++
          "\nPacketsRecv: " ++ toString net.PacketsRecv ++ "\n"]
      else acc) acc
    = acc ++ (l.filter (fun n => 0 < n.PacketsSent ∧ 0 < n.PacketsRecv)).map netBlock := by
  induction l generalizing acc with
  | nil => simp
  | cons a t ih =>
    simp only [List.foldl_cons, ih]
    by_cases h : 0 < a.PacketsSent ∧ 0 < a.PacketsRecv
    · simp [h, List.filter_cons, netBlock]
    · have h2 : ¬ (a.PacketsSent > 0 ∧ a.PacketsRecv > 0) := h
      simp only [if_neg h2, List.filter_cons, h, decide_False]
      simp

theorem getDiskStat_ok (p : Provider) (w : World) (disks : List PartitionStat)
    (h : p.partitions = (disks, none)) :
    getDiskStat p w = .ret
      (if disks = [] then "no disk was found"
       else "\n".intercalate ((disks.filter (fun d => d.Fstype ≠ "autofs")).map diskBlock))
      (w.ask .partitions) := by
  simp only [getDiskStat, bind_apply, call_apply, h, checkError_none, pure_apply]
  by_cases hd : disks = []
  · subst hd; rfl
  · have : disks.length ≠ 0 := by simpa using hd
    simp only [if_neg this, if_neg hd, disk_loop, stringsJoin_eq_intercalate, bind_apply,
      pure_apply, List.nil_append, ite_prog_apply]

theorem getNetStat_ok (p : Provider) (w : World) (nets : List IOCountersStat)
    (h : p.ioCounters = (nets, none)) :
    getNetStat p w = .ret
      (if nets = [] then "no net was found"
       else "\n".intercalate
        ((nets.filter (fun n => 0 < n.PacketsSent ∧ 0 < n.PacketsRecv)).map netBlock))
      (w.ask .ioCounters) := by
  simp only [getNetStat, bind_apply, call_apply, h, checkError_none, pure_apply]
  by_cases hd : nets = []
  · subst hd; rfl
  · have : nets.length ≠ 0 := by simpa using hd
    simp only [if_neg this, if_neg hd, net_loop, stringsJoin_eq_intercalate, bind_apply,
      pure_apply, List.nil_append, ite_prog_apply]

theorem getCPUStat_ok (p : Provider) (w : World) (cpus : List InfoStat)
    (h : p.cpuInfo = (cpus, none)) :
    getCPUStat p w = .ret
      (if cpus = [] then "no cpu was found"
       else "\n".intercalate (cpus.map fun cpu =>
        "ModelName: " ++ cpu.ModelName ++ "\nCores: " ++ toString cpu.Cores ++ "\n"))
      (w.ask .cpuInfo) := by
  simp only [getCPUStat, bind_apply, call_apply, h, checkError_none, pure_apply]
  by_cases hd : cpus = []
  · subst hd; rfl
  · have : cpus.length ≠ 0 := by simpa using hd
    simp only [if_neg this, if_neg hd, cpu_loop, stringsJoin_eq_intercalate, bind_apply,
      pure_apply, List.nil_append, ite_prog_apply]

theorem procLoop_skip (env : Env) (p : Provider) (pids : List Int) (s : String) (w : World)
    (h : (1 : Int) ∉ pids) : procLoop env p pids s w = .ret s w := by
  induction pids with
  | nil => rfl
  | cons pid rest ih =>
    have h1 : pid ≠ 1 := fun e => h (by simp [e])
    have h2 : (1 : Int) ∉ rest := fun e => h (by simp [e])
    unfold procLoop
    simp only [if_neg h1]
    exact ih h2

theorem procLoop_found (env : Env) (p : Provider) (pids : List Int) (s : String) (w : World)
    (h : (1 : Int) ∈ pids) (proc : Int) (name : String) (mem : MemoryInfoStat)
    (times : TimesStat) (children : List Int)
    (h1 : p.newProcess 1 = (proc, none)) (h2 : p.procName proc = (name, none))
    (h3 : p.procMemoryInfo proc = (mem, none)) (h4 : p.procTimes proc = (times, none))
    (h5 : p.procChildren proc = (children, none)) :
    procLoop env p pids s w = .ret (procBlock env name mem times children.length)
      (((((w.ask (.newProcess 1)).ask (.procName proc)).ask (.procMemoryInfo proc)).ask
        (.procTimes proc)).ask (.procChildren proc)) := by
  induction pids with
  | nil => simp at h
  | cons pid rest ih =>
    unfold procLoop
    by_cases hp : pid = 1
    · simp only [hp, if_true, bind_apply, call_apply, h1, h2, h3, h4, h5, checkError_none,
        pure_apply, procBlock]
    · simp only [if_neg hp]
      apply ih
      rcases List.mem_cons.mp h with e | e
      · exact absurd e.symm hp
      · exact e

theorem append_ne_empty (a b : String) (h : a ≠ "") : a ++ b ≠ "" := by
  intro e
  apply h
  have h1 := congrArg String.data e
  simp only [String.data_append] at h1
  apply String.ext
  exact (List.append_eq_nil.mp h1).1

theorem intercalate_cons_ne_empty (sep a : String) (l : List String) (h : a ≠ "") :
    sep.intercalate (a :: l) ≠ "" := by
  have key : ∀ (r : List String) (b : String), b ≠ "" → String.intercalate.go b sep r ≠ "" := by
    intro r
    induction r with
    | nil => intro b hb; exact hb
    | cons x xs ih =>
      intro b hb
      simp only [String.intercalate.go]
      exact ih _ (by rw [String.append_assoc]; exact append_ne_empty _ _ hb)
  exact key l a h

theorem intercalate_map_ne_empty {α : Type} (sep : String) (f : α → String) (l : List α)
    (hl : l ≠ []) (hf : ∀ a, f a ≠ "") : sep.intercalate (l.map f) ≠ "" := by
  cases l with
  | nil => exact absurd rfl hl
  | cons a t => exact intercalate_cons_ne_empty sep (f a) (t.map f) (hf a)

theorem diskBlock_ne_empty (d : PartitionStat) : diskBlock d ≠ "" := by
  unfold diskBlock
  simp only [String.append_assoc]
  exact append_ne_empty _ _ (by decide)

theorem netBlock_ne_empty (n : IOCountersStat) : netBlock n ≠ "" := by
  unfold netBlock
  simp only [String.append_assoc]
  exact append_ne_empty _ _ (by decide)

theorem procBlock_ne_empty (env : Env) (name : String) (mem : MemoryInfoStat) (times : TimesStat)
    (n : Nat) : procBlock env name mem times n ≠ "" := by
  unfold procBlock
  simp only [String.append_assoc]
  exact append_ne_empty _ _ (by decide)

/-- C4: for a partition list returned without error, `getDiskStat` returns the
sentinel "no disk was found" for the empty list and otherwise the blocks
"Device: ..\nMountpoint: ..\n" of exactly the partitions whose type is not "autofs", in
the order of the list, joined by one newline; for the two partitions
/dev/sda1 (ext4) and auto (autofs) the text is "Device: /dev/sda1\nMountpoint: /\n", and
for a non-empty list of autofs partitions only it is the empty string. -/
theorem getDiskStat_filters_autofs (p : Provider) (w : World) (disks : List PartitionStat)
    (h : p.partitions = (disks, none)) :
    getDiskStat p w = .ret
        (if disks = [] then "no disk was found"
         else "\n".intercalate ((disks.filter (fun d => d.Fstype ≠ "autofs")).map diskBlock))
        (w.ask .partitions) ∧
      (disks = [⟨"/dev/sda1", "/", "ext4"⟩, ⟨"auto", "/auto", "autofs"⟩] →
        getDiskStat p w = .ret "Device: /dev/sda1\nMountpoint: /\n" (w.ask .partitions)) ∧
      (disks ≠ [] → (∀ d ∈ disks, d.Fstype = "autofs") →
        getDiskStat p w = .ret "" (w.ask .partitions)) := by
  have hok := getDiskStat_ok p w disks h
  refine ⟨hok, ?_, ?_⟩
  · intro hd
    rw [hok, hd]
    congr 1
  · intro hne hall
    rw [hok, if_neg hne]
    have : disks.filter (fun d => d.Fstype ≠ "autofs") = [] := by
      rw [List.filter_eq_nil_iff]
      intro d hd
      simp [hall d hd]
    rw [this]
    rfl

/-- Witness of C4: the example library returns the two partitions of the claim. -/
theorem getDiskStat_filters_autofs_witness :
    getDiskStat exampleProvider World.init =
      .ret "Device: /dev/sda1\nMountpoint: /\n" (World.init.ask .partitions) :=
  (getDiskStat_filters_autofs exampleProvider World.init _ rfl).2.1 rfl

/-- C5: for a list of interface counters returned without error, `getNetStat` returns
the sentinel "no net was found" for the empty list and otherwise the blocks
"Interface: ..\nPacketsSent: ..\nPacketsRecv: ..\n" of exactly the interfaces whose two
packet counts are both positive, in the order of the list, joined by one newline; for
eth0 (10 sent, 5 received) and lo (0, 0) the text is the block of eth0 alone. -/
theorem getNetStat_drops_idle (p : Provider) (w : World) (nets : List IOCountersStat)
    (h : p.ioCounters = (nets, none)) :
    getNetStat p w = .ret
        (if nets = [] then "no net was found"
         else "\n".intercalate
          ((nets.filter (fun n => 0 < n.PacketsSent ∧ 0 < n.PacketsRecv)).map netBlock))
        (w.ask .ioCounters) ∧
      (nets = [⟨"eth0", 10, 5⟩, ⟨"lo", 0, 0⟩] →
        getNetStat p w =
          .ret "Interface: eth0\nPacketsSent: 10\nPacketsRecv: 5\n" (w.ask .ioCounters)) := by
  have hok := getNetStat_ok p w nets h
  refine ⟨hok, ?_⟩
  intro hd
  rw [hok, hd]
  congr 1

/-- Witness of C5: the example library returns the two interfaces of the claim. -/
theorem getNetStat_drops_idle_witness :
    getNetStat exampleProvider World.init =
      .ret "Interface: eth0\nPacketsSent: 10\nPacketsRecv: 5\n" (World.init.ask .ioCounters) :=
  (getNetStat_drops_idle exampleProvider World.init _ rfl).2 rfl

theorem getProcStat_nil (env : Env) (p : Provider) (w : World)
    (h : p.pids = ([], none)) : getProcStat env p w = .ret "no pid was found" (w.ask .pids) := by
  simp only [getProcStat, bind_apply, call_apply, h, checkError_none]
  rfl

theorem getProcStat_skip (env : Env) (p : Provider) (w : World) (pids : List Int)
    (h : p.pids = (pids, none)) (hne : pids ≠ []) (h1 : (1 : Int) ∉ pids) :
    getProcStat env p w = .ret "" (w.ask .pids) := by
  have hl : pids.length ≠ 0 := by simpa using hne
  simp only [getProcStat, bind_apply, call_apply, h, checkError_none, ite_prog_apply,
    if_neg hl]
  exact procLoop_skip env p pids "" _ h1

/-- C6: for a list of process identifiers returned without error, `getProcStat` returns
"no pid was found" for the empty list; for a non-empty list without 1 it returns the
empty string after the single query for the list (no process is queried, the run does
not exit); and when 1 occurs anywhere in the list, any number of times, and the five
queries about process 1 succeed, it returns the one block of process 1 with the fields
Name, ResidentSetSize, VirtualMemorySize, SwapSize, UserTime, SystemTime, Children (the
number of children), each of the five queries being put exactly once. -/
theorem getProcStat_reports_init (env : Env) (p : Provider) (w : World) (pids : List Int)
    (h : p.pids = (pids, none)) :
    (pids = [] → getProcStat env p w = .ret "no pid was found" (w.ask .pids)) ∧
      (pids ≠ [] → (1 : Int) ∉ pids → getProcStat env p w = .ret "" (w.ask .pids)) ∧
      (∀ (proc : Int) (name : String) (mem : MemoryInfoStat) (times : TimesStat)
          (children : List Int),
        (1 : Int) ∈ pids → p.newProcess 1 = (proc, none) → p.procName proc = (name, none) →
        p.procMemoryInfo proc = (mem, none) → p.procTimes proc = (times, none) →
        p.procChildren proc = (children, none) →
        getProcStat env p w = .ret (procBlock env name mem times children.length)
          ((((((w.ask .pids).ask (.newProcess 1)).ask (.procName proc)).ask
            (.procMemoryInfo proc)).ask (.procTimes proc)).ask (.procChildren proc))) := by
  refine ⟨?_, ?_, ?_⟩
  · intro he
    subst he
    exact getProcStat_nil env p w h
  · intro hne h1
    exact getProcStat_skip env p w pids h hne h1
  · intro proc name mem times children h1 e1 e2 e3 e4 e5
    have hne : pids ≠ [] := fun e => by simp [e] at h1
    have hl : pids.length ≠ 0 := by simpa using hne
    simp only [getProcStat, bind_apply, call_apply, h, checkError_none, ite_prog_apply,
      if_neg hl]
    exact procLoop_found env p pids "" _ h1 proc name mem times children e1 e2 e3 e4 e5

/-- Witness of C6: the identifiers 1, 50, 200 give the block of process 1, whose field
values are those of the example library; the identifiers 50, 200 give the empty text
after the single query for the list. -/
theorem getProcStat_reports_init_witness :
    getProcStat exampleEnv exampleProvider World.init =
        .ret ("Init(pid=1):\n Name: init\n ResidentSetSize: 4096\n VirtualMemorySize: 8192\n" ++
              " SwapSize: 0\n UserTime: 0\n SystemTime: 0\n Children: 2\n")
          ((((((World.init.ask .pids).ask (.newProcess 1)).ask (.procName 1)).ask
              (.procMemoryInfo 1)).ask (.procTimes 1)).ask (.procChildren 1)) ∧
      getProcStat exampleEnv noInitProvider World.init = .ret "" (World.init.ask .pids) :=
  ⟨((getProcStat_reports_init exampleEnv exampleProvider World.init [1, 50, 200] rfl).2.2
      1 "init" ⟨4096, 8192, 0⟩ ⟨⟨0⟩, ⟨0⟩⟩ [50, 200] (by decide) rfl rfl rfl rfl rfl).trans
      (by decide),
   (getProcStat_reports_init exampleEnv noInitProvider World.init [50, 200] rfl).2.1
      (by decide) (by decide)⟩

theorem procLoop_ret_block (env : Env) (p : Provider) (pids : List Int) (s t : String)
    (w w1 : World) (h : procLoop env p pids s w = .ret t w1) (hmem : (1 : Int) ∈ pids) :
    ∃ name mem times n, t = procBlock env name mem times n := by
  induction pids with
  | nil => simp at hmem
  | cons pid rest ih =>
    by_cases hp : pid = 1
    · subst hp
      rcases h1 : p.newProcess 1 with ⟨proc, _ | e⟩
      swap
      · rw [procLoop] at h
        simp only [if_true, bind_apply, call_apply, h1, checkError_some] at h
        exact Result.noConfusion h
      rcases h2 : p.procName proc with ⟨name, _ | e⟩
      swap
      · rw [procLoop] at h
        simp only [if_true, bind_apply, call_apply, h1, h2, checkError_none, checkError_some] at h
        exact Result.noConfusion h
      rcases h3 : p.procMemoryInfo proc with ⟨mem, _ | e⟩
      swap
      · rw [procLoop] at h
        simp only [if_true, bind_apply, call_apply, h1, h2, h3, checkError_none,
          checkError_some] at h
        exact Result.noConfusion h
      rcases h4 : p.procTimes proc with ⟨times, _ | e⟩
      swap
      · rw [procLoop] at h
        simp only [if_true, bind_apply, call_apply, h1, h2, h3, h4, checkError_none,
          checkError_some] at h
        exact Result.noConfusion h
      rcases h5 : p.procChildren proc with ⟨children, _ | e⟩
      swap
      · rw [procLoop] at h
        simp only [if_true, bind_apply, call_apply, h1, h2, h3, h4, h5, checkError_none,
          checkError_some] at h
        exact Result.noConfusion h
      have hf := procLoop_found env p (1 :: rest) s w hmem proc name mem times children
        h1 h2 h3 h4 h5
      rw [hf] at h
      exact ⟨name, mem, times, children.length, (Result.ret.inj h).1.symm⟩
    · have hr : (1 : Int) ∈ rest := by
        rcases List.mem_cons.mp hmem with e | e
        · exact absurd e.symm hp
        · exact e
      apply ih _ hr
      rw [procLoop] at h
      rw [if_neg hp] at h
      exact h

/-- Counterexample to C3: the metrics library answers the partition query without
error, with one partition of type autofs, and `getDiskStat` returns the empty string. -/
theorem getDiskStat_returns_empty_string :
    autofsProvider.partitions = ([⟨"auto", "/auto", "autofs"⟩], none) ∧
      getDiskStat autofsProvider World.init = .ret "" (World.init.ask .partitions) := by
  decide

/-- C3, amended: when a collector returns, its text is the empty string in exactly
three situations: `getDiskStat` on a non-empty list of autofs partitions only,
`getNetStat` on a non-empty list without an interface that has both packet counts
positive, `getProcStat` on a non-empty list without the identifier 1.  In every other
situation the text is not empty; in particular `getCPUStat` and `getMemStat` never
return the empty string, and on an empty list each of the four list collectors returns
its sentinel. -/
theorem collector_text_empty_iff (env : Env) (p : Provider) (d : Domain) (w w1 : World)
    (t : String) (h : collector env p d w = .ret t w1) :
    (t = "" ↔
      (d = .disk ∧ p.partitions.1 ≠ [] ∧ ∀ x ∈ p.partitions.1, x.Fstype = "autofs") ∨
      (d = .net ∧ p.ioCounters.1 ≠ [] ∧
        ∀ x ∈ p.ioCounters.1, ¬ (0 < x.PacketsSent ∧ 0 < x.PacketsRecv)) ∨
      (d = .proc ∧ p.pids.1 ≠ [] ∧ (1 : Int) ∉ p.pids.1)) ∧
    (d = .cpu → p.cpuInfo.1 = [] → t = "no cpu was found") ∧
    (d = .disk → p.partitions.1 = [] → t = "no disk was found") ∧
    (d = .net → p.ioCounters.1 = [] → t = "no net was found") ∧
    (d = .proc → p.pids.1 = [] → t = "no pid was found") := by
  cases d
  case cpu =>
    rcases hp : p.cpuInfo with ⟨v, _ | e⟩
    swap
    · simp only [collector, getCPUStat, bind_apply, call_apply, hp, checkError_some] at h
      cases h
    simp only [collector, getCPUStat_ok p w v hp] at h
    cases h
    refine ⟨?_, ?_, ?_, ?_, ?_⟩ <;> simp only [reduceCtorEq, false_and, or_self, iff_false,
      false_implies, forall_const]
    · by_cases hv : v = []
      · simp only [hv, if_true]; decide
      · simp only [if_neg hv]
        exact intercalate_map_ne_empty _ _ v hv (fun a => by
          simp only [String.append_assoc]
          exact append_ne_empty _ _ (by decide))
    · intro hv; simp only [hv, if_true]
  case disk =>
    rcases hp : p.partitions with ⟨v, _ | e⟩
    swap
    · simp only [collector, getDiskStat, bind_apply, call_apply, hp, checkError_some] at h
      cases h
    simp only [collector, getDiskStat_ok p w v hp] at h
    cases h
    refine ⟨?_, ?_, ?_, ?_, ?_⟩ <;> simp only [reduceCtorEq, false_and, or_false, false_or,
      true_and, false_implies, forall_const]
    · by_cases hv : v = []
      · simp only [hv, if_true, ne_eq, not_true_eq_false, false_and, iff_false]; decide
      · simp only [if_neg hv, ne_eq, hv, not_false_eq_true, true_and]
        constructor
        · intro he x hx
          by_contra hne
          have hmem : x ∈ v.filter (fun d => d.Fstype ≠ "autofs") := by
            simp [List.mem_filter, hx, hne]
          have hl : v.filter (fun d => d.Fstype ≠ "autofs") ≠ [] := List.ne_nil_of_mem hmem
          exact intercalate_map_ne_empty _ _ _ hl diskBlock_ne_empty he
        · intro hall
          have : v.filter (fun d => d.Fstype ≠ "autofs") = [] := by
            rw [List.filter_eq_nil_iff]
            intro d hd
            simp [hall d hd]
          rw [this]
          rfl
    · intro hv; simp only [hv, if_true]
  case mem =>
    rcases hp : p.virtualMemory with ⟨v, _ | e⟩
    swap
    · simp only [collector, getMemStat, bind_apply, call_apply, hp, checkError_some] at h
      cases h
    simp only [collector, getMemStat, bind_apply, call_apply, hp, checkError_none,
      pure_apply] at h
    cases h
    refine ⟨?_, ?_, ?_, ?_, ?_⟩ <;> simp only [reduceCtorEq, false_and, or_self, iff_false,
      false_implies, forall_const]
    simp only [String.append_assoc]
    exact append_ne_empty _ _ (by decide)
  case net =>
    rcases hp : p.ioCounters with ⟨v, _ | e⟩
    swap
    · simp only [collector, getNetStat, bind_apply, call_apply, hp, checkError_some] at h
      cases h
    simp only [collector, getNetStat_ok p w v hp] at h
    cases h
    refine ⟨?_, ?_, ?_, ?_, ?_⟩ <;> simp only [reduceCtorEq, false_and, or_false, false_or,
      true_and, false_implies, forall_const]
    · by_cases hv : v = []
      · simp only [hv, if_true, ne_eq, not_true_eq_false, false_and, iff_false]; decide
      · simp only [if_neg hv, ne_eq, hv, not_false_eq_true, true_and]
        constructor
        · intro he x hx hpos
          have hmem : x ∈ v.filter (fun n => 0 < n.PacketsSent ∧ 0 < n.PacketsRecv) := by
            simp [List.mem_filter, hx, hpos]
          have hl := List.ne_nil_of_mem hmem
          exact intercalate_map_ne_empty _ _ _ hl netBlock_ne_empty he
        · intro hall
          have : v.filter (fun n => 0 < n.PacketsSent ∧ 0 < n.PacketsRecv) = [] := by
            rw [List.filter_eq_nil_iff]
            intro d hd
            simpa using hall d hd
          rw [this]
          rfl
    · intro hv; simp only [hv, if_true]
  case proc =>
    rcases hp : p.pids with ⟨v, _ | e⟩
    swap
    · simp only [collector, getProcStat, bind_apply, call_apply, hp, checkError_some] at h
      cases h
    refine ⟨?_, ?_, ?_, ?_, ?_⟩ <;> simp only [reduceCtorEq, false_and, or_false, false_or,
      true_and, false_implies, forall_const]
    · by_cases hv : v = []
      · subst hv
        rw [collector, getProcStat_nil env p w hp] at h
        cases h
        simp only [ne_eq, not_true_eq_false, false_and, iff_false]; decide
      · simp only [ne_eq, hv, not_false_eq_true, true_and]
        by_cases h1 : (1 : Int) ∈ v
        · have hl : v.length ≠ 0 := by simpa using hv
          simp only [collector, getProcStat, bind_apply, call_apply, hp, checkError_none,
            ite_prog_apply, if_neg hl] at h
          obtain ⟨name, mem, times, n, ht⟩ := procLoop_ret_block env p v _ t _ w1 h h1
          simp only [h1, not_true_eq_false, iff_false, ht]
          exact procBlock_ne_empty env name mem times n
        · rw [collector, getProcStat_skip env p w v hp hv h1] at h
          cases h
          simp only [h1, not_false_eq_true]
    · intro hv
      subst hv
      rw [collector, getProcStat_nil env p w hp] at h
      cases h
      rfl

/-- Witness of the amended C3 on the disk collector of the example library. -/
theorem collector_text_empty_iff_witness :
    collector exampleEnv exampleProvider .disk World.init =
        .ret "Device: /dev/sda1\nMountpoint: /\n" (World.init.ask .partitions) ∧
      ¬ ("Device: /dev/sda1\nMountpoint: /\n" = "") :=
  ⟨by decide, fun he =>
    (((collector_text_empty_iff exampleEnv exampleProvider .disk World.init
      (World.init.ask .partitions) "Device: /dev/sda1\nMountpoint: /\n" (by decide)).1.mp he).elim
      (fun h => absurd (h.2.2 ⟨"/dev/sda1", "/", "ext4"⟩ (by decide)) (by decide))
      (fun h => h.elim (fun h => absurd h.1 (by decide)) (fun h => absurd h.1 (by decide))))⟩

theorem first_failing (P : Domain → Prop) (h : ∃ d, P d) :
    ∃ d, P d ∧ (∀ x ∈ d.before, ¬ P x) ∧ ∃ post, Domain.order = d.before ++ d :: post := by
  by_cases h1 : P .cpu
  · exact ⟨.cpu, h1, by simp [Domain.before, Domain.order], _, rfl⟩
  by_cases h2 : P .disk
  · exact ⟨.disk, h2, by simpa [Domain.before, Domain.order] using h1, _, rfl⟩
  by_cases h3 : P .mem
  · exact ⟨.mem, h3, by simpa [Domain.before, Domain.order] using ⟨h1, h2⟩, _, rfl⟩
  by_cases h4 : P .net
  · exact ⟨.net, h4, by simpa [Domain.before, Domain.order] using ⟨h1, h2, h3⟩, _, rfl⟩
  by_cases h5 : P .proc
  · exact ⟨.proc, h5, by simpa [Domain.before, Domain.order] using ⟨h1, h2, h3, h4⟩, _, rfl⟩
  obtain ⟨d, hd⟩ := h
  cases d <;> contradiction

theorem any_enabled_of (w : World) (d : Domain) (h : d.enabled w = true) :
    (Domain.order.any fun d => d.enabled w) = true := by
  rw [List.any_eq_true]
  exact ⟨d, by cases d <;> simp [Domain.order], h⟩

theorem enabled_err (w : World) (s : String) (d : Domain) :
    d.enabled (w.err s) = d.enabled w := by
  cases d <;> rfl

theorem reportText_err (env : Env) (p : Provider) (w : World) (s : String) (ds : List Domain) :
    reportText env p (w.err s) ds = reportText env p w ds := by
  unfold reportText
  simp only [enabled_err]

theorem collector_returns (env : Env) (p : Provider) (d : Domain)
    (hx : exits (collector env p d) = false) (wa : World) :
    ∃ wb, collector env p d wa = .ret (returned (collector env p d)) wb := by
  have hf := framed_collector env p d wa
  unfold exits at hx
  unfold returned
  cases hc : collector env p d World.init with
  | exit c w1 => rw [hc] at hx; cases hx
  | ret t w1 =>
    rw [hc] at hf
    exact ⟨_, hf⟩

/-- C1: when parsing leaves at least one switch true and every query of the metrics
library succeeds, `main` returns, and what it has added to standard output is the
sequence of the sections of the enabled domains, and of no other domain, each once, in
the order CPU, Disk, Mem, Net, Proc; a section is a newline, the bold title, a newline,
the text returned by the collector of the domain, unchanged, and a newline.  The text
of a collector is the same whenever it runs, and two command lines that leave the same
switches give the same standard output, whatever the order of their flags. -/
theorem main_prints_enabled_sections (env : Env) (p : Provider) (args : List String)
    (w0 w : World) (hparse : Parse env args w0 = .ret () w)
    (hsome : ∃ d, Domain.enabled w d = true) (hp : p.AllSucceed) :
    ∃ w1, main env p args w0 = .ret () w1 ∧
      w1.stdout = w.stdout ++ String.join
        (([Domain.cpu, Domain.disk, Domain.mem, Domain.net, Domain.proc].filter
            fun d => d.enabled w).map
          fun d => "\n" ++ env.bold d.title ++ "\n" ++ returned (collector env p d) ++ "\n") ∧
      (∀ d wa, ∃ wb, collector env p d wa = .ret (returned (collector env p d)) wb) ∧
      (∀ args2 w2, Parse env args2 w0 = .ret () w2 →
        (∀ d, Domain.enabled w2 d = Domain.enabled w d) →
        ∃ w3, main env p args2 w0 = .ret () w3 ∧ w3.stdout = w1.stdout) := by
  have key : ∀ (a : List String) (v : World), Parse env a w0 = .ret () v →
      (∃ d, Domain.enabled v d = true) →
      ∃ v1, main env p a w0 = .ret () v1 ∧
        v1.stdout = v.stdout ++ reportText env p v Domain.order := by
    intro a v hpa hv
    obtain ⟨d, hd⟩ := hv
    obtain ⟨qs, hqs⟩ := runSteps_ret env p Domain.order (v.err "\n")
      (fun x _ _ => exits_false_of_allSucceed env p x hp)
    refine ⟨((v.err "\n").reported (reportText env p (v.err "\n") Domain.order) qs).err "\n", ?_, ?_⟩
    · rw [main_eq, hpa]
      simp only [any_enabled_of v d hd, if_true, hqs]
    · simp only [reportText_err]
      rfl
  obtain ⟨w1, hm, hout⟩ := key args w hparse hsome
  refine ⟨w1, hm, hout, ?_, ?_⟩
  · intro d wa
    exact collector_returns env p d (exits_false_of_allSucceed env p d hp) wa
  · intro args2 w2 hp2 hsame
    obtain ⟨d, hd⟩ := hsome
    obtain ⟨w3, hm3, hout3⟩ := key args2 w2 hp2 ⟨d, by rw [hsame]; exact hd⟩
    refine ⟨w3, hm3, ?_⟩
    rw [hout3, hout, (Parse_ret env args2 w0 w2 hp2).1, (Parse_ret env args w0 w hparse).1]
    unfold reportText
    simp only [hsame]

/-- C2: when parsing has returned and a query fails in the collector of an enabled
domain, then for the first such domain `d` in the order CPU, Disk, Mem, Net, Proc the
run exits with code 1; standard output has received the sections of the enabled domains
before `d` and nothing else (none for `d`, none for a later domain); the last query put
to the metrics library is a failed query `q`, and standard error has received the
newline written by `main` and the line "There was an error retreiving <subject of q> :
<error>". -/
theorem main_aborts_at_first_failure (env : Env) (p : Provider) (args : List String)
    (w0 w : World) (hparse : Parse env args w0 = .ret () w)
    (hfail : ∃ d, Domain.enabled w d = true ∧ FailsIn env p d) :
    ∃ d q e w1, Domain.enabled w d = true ∧ FailsIn env p d ∧
      (∀ x ∈ d.before, Domain.enabled w x = true → ¬ FailsIn env p x) ∧
      main env p args w0 = .exit 1 w1 ∧
      w1.stdout = w.stdout ++ String.join
        ((d.before.filter fun x => x.enabled w).map
          fun x => "\n" ++ env.bold x.title ++ "\n" ++ returned (collector env p x) ++ "\n") ∧
      w1.queries.getLast? = some q ∧ p.err q = some e ∧
      w1.stderr = w.stderr ++ "\n" ++ errorLine q.subject e := by
  obtain ⟨d, ⟨hd, hfd⟩, hbefore, post, hsplit⟩ :=
    first_failing (fun d => Domain.enabled w d = true ∧ FailsIn env p d) hfail
  have hpre : ∀ x ∈ d.before, x.enabled (w.err "\n") = true →
      exits (collector env p x) = false := by
    intro x hx he
    rw [enabled_err] at he
    have hn : ¬ FailsIn env p x := fun hf => hbefore x hx ⟨he, hf⟩
    rw [failsIn_iff_exits] at hn
    simpa using hn
  obtain ⟨qs, q, e, hq, hrun⟩ := runSteps_exit env p d.before post d (w.err "\n") hpre
    (by rw [enabled_err]; exact hd) ((failsIn_iff_exits env p d).mp hfd)
  refine ⟨d, q, e,
    (w.err "\n").aborted (reportText env p (w.err "\n") d.before) (errorLine q.subject e)
      (qs ++ [q]),
    hd, hfd, fun x hx he hf => hbefore x hx ⟨he, hf⟩, ?_, ?_, ?_, hq, ?_⟩
  · rw [main_eq, hparse]
    have hany := any_enabled_of w d hd
    simp only [hany, if_true]
    rw [hsplit, hrun]
  · simp only [reportText_err]
    rfl
  · simp [World.aborted, ← List.append_assoc]
  · simp [World.aborted, World.err]

theorem parseOne_accepted (env : Env) (s : String) (w : World) (h : acceptedFlag s = true) :
    ∃ w1, parseOne env s w = .ret .seen w1 ∧ SameOutput w w1 := by
  unfold acceptedFlag at h
  unfold parseOne
  cases hs : scan s with
  | stop => simp [hs] at h
  | bad => simp [hs] at h
  | named name value =>
    simp only [hs] at h ⊢
    cases hf : formal name with
    | none => simp [hf] at h
    | some flag =>
      simp only [hf] at h ⊢
      have hT : parseBool "true" = some true := by decide
      cases flag
      case version => simp at h
      case all => cases value <;> exact ⟨_, rfl, rfl, rfl, rfl, rfl⟩
      all_goals
        cases value with
        | none =>
          simp only [setFlag, FlagVar.Set, hT, bind_apply, assign, pure_apply]
          exact ⟨_, rfl, rfl, rfl, rfl, rfl⟩
        | some v =>
          simp only [Option.isSome_iff_exists] at h
          obtain ⟨b, hb⟩ := h
          simp only [setFlag, FlagVar.Set, hb, bind_apply, assign, pure_apply]
          exact ⟨_, rfl, rfl, rfl, rfl, rfl⟩

theorem Parse_accepted (env : Env) (pre : List String) (w : World)
    (h : ∀ a ∈ pre, acceptedFlag a = true) :
    ∃ w1, SameOutput w w1 ∧ ∀ rest, Parse env (pre ++ rest) w = Parse env rest w1 := by
  induction pre generalizing w with
  | nil => exact ⟨w, sameOutput_refl w, fun _ => rfl⟩
  | cons a pre ih =>
    obtain ⟨w1, h1, hs1⟩ := parseOne_accepted env a w (h a (List.mem_cons_self _ _))
    obtain ⟨w2, hs2, h2⟩ := ih w1 (fun x hx => h x (List.mem_cons_of_mem _ hx))
    refine ⟨w2, sameOutput_trans hs1 hs2, fun rest => ?_⟩
    simp only [List.cons_append, Parse, bind_apply, h1]
    exact h2 rest

theorem parseOne_version (env : Env) (s : String) (w : World) (h : isVersionFlag s = true) :
    parseOne env s w = .exit 0 (w.out ("\n" ++ env.bold "Version:" ++ " " ++ VERSION ++ "\n")) := by
  unfold isVersionFlag at h
  unfold parseOne
  cases hs : scan s with
  | stop => simp [hs] at h
  | bad => simp [hs] at h
  | named name value =>
    simp only [hs, beq_iff_eq] at h
    simp only [h]
    cases value <;> rfl

theorem parseOne_unknown (env : Env) (s name : String) (w : World)
    (h : unknownFlag s = some name) :
    parseOne env s w = .exit w.statusCode
      ((w.err ("flag provided but not defined: -" ++ name ++ "\n")).usage env) := by
  unfold unknownFlag at h
  unfold parseOne
  cases hs : scan s with
  | stop => simp [hs] at h
  | bad => simp [hs] at h
  | named n value =>
    simp only [hs] at h ⊢
    cases hf : formal n with
    | some f => simp [hf] at h
    | none =>
      simp only [hf] at h ⊢
      by_cases hh : n = "help" ∨ n = "h"
      · simp [hh] at h
      · simp only [if_neg hh, Option.some.injEq] at h
        subst h
        simp only [if_neg hh, bind_apply, failf_apply]

theorem main_of_parse_exit (env : Env) (p : Provider) (args : List String) (w0 w : World)
    (c : Int) (h : Parse env args w0 = .exit c w) : main env p args w0 = .exit c w := by
  rw [main_eq, h]

theorem parseOne_all (env : Env) (a : String)
    (ha : a = "-a" ∨ a = "--all" ∨ a = "-all" ∨ a = "--a") (w : World) :
    parseOne env a w = .ret .seen w.allOn := by
  have h1 : scan "-a" = .named "a" none := by decide
  have h2 : scan "--all" = .named "all" none := by decide
  have h3 : scan "-all" = .named "all" none := by decide
  have h4 : scan "--a" = .named "a" none := by decide
  have f1 : formal "a" = some .all := by decide
  have f2 : formal "all" = some .all := by decide
  rcases ha with e | e | e | e <;> subst e <;>
    simp only [parseOne, h1, h2, h3, h4, f1, f2] <;> rfl

theorem Parse_five (env : Env) (post : List String) (w : World) :
    Parse env ("-c" :: "-d" :: "-m" :: "-n" :: "-p" :: post) w = Parse env post w.allOn := by
  have hT : parseBool "true" = some true := by decide
  have h1 : scan "-c" = .named "c" none := by decide
  have h2 : scan "-d" = .named "d" none := by decide
  have h3 : scan "-m" = .named "m" none := by decide
  have h4 : scan "-n" = .named "n" none := by decide
  have h5 : scan "-p" = .named "p" none := by decide
  have f1 : formal "c" = some .cpuStat := by decide
  have f2 : formal "d" = some .diskStat := by decide
  have f3 : formal "m" = some .memStat := by decide
  have f4 : formal "n" = some .netStat := by decide
  have f5 : formal "p" = some .procStat := by decide
  simp only [Parse, parseOne, h1, h2, h3, h4, h5, f1, f2, f3, f4, f5, setFlag, FlagVar.Set, hT,
    bind_apply, assign, pure_apply]
  rfl

theorem Parse_congr_left (env : Env) (pre l1 l2 : List String)
    (h : ∀ w, Parse env l1 w = Parse env l2 w) (w : World) :
    Parse env (pre ++ l1) w = Parse env (pre ++ l2) w := by
  induction pre generalizing w with
  | nil => exact h w
  | cons a pre ih =>
    simp only [List.cons_append, Parse, bind_apply]
    cases parseOne env a w with
    | exit c w1 => rfl
    | ret step w1 =>
      cases step
      · exact ih w1
      all_goals rfl

theorem run_congr (env : Env) (p : Provider) (a1 a2 : List String)
    (h : Parse env a1 World.init = Parse env a2 World.init) : run env p a1 = run env p a2 := by
  unfold run
  rw [main_eq, main_eq, h]

/-- Witness of C1: the command lines `-p -c` and `-c -p` on the example library. -/
theorem main_prints_enabled_sections_witness :
    ∃ w1, main exampleEnv exampleProvider ["-p", "-c"] World.init = .ret () w1 ∧
      w1.stdout = "\nCPU:\nModelName: Example CPU\nCores: 4\n\n" ++
        ("\nProc:\nInit(pid=1):\n Name: init\n ResidentSetSize: 4096\n VirtualMemorySize: 8192\n" ++
         " SwapSize: 0\n UserTime: 0\n SystemTime: 0\n Children: 2\n\n") ∧
      ∃ w3, main exampleEnv exampleProvider ["-c", "-p"] World.init = .ret () w3 ∧
        w3.stdout = w1.stdout :=
  match main_prints_enabled_sections exampleEnv exampleProvider ["-p", "-c"] World.init
      { World.init with cpuStat := true, procStat := true } (by decide) ⟨.cpu, rfl⟩
      (fun q => by cases q <;> rfl) with
  | ⟨w1, h1, h2, _, h4⟩ =>
    ⟨w1, h1, h2.trans (by decide), h4 ["-c", "-p"]
      { World.init with cpuStat := true, procStat := true } (by decide) (fun _ => rfl)⟩

/-- Witness of C2: all five domains enabled, the network query fails. -/
theorem main_aborts_at_first_failure_witness :
    ∃ d q e w1, Domain.enabled World.init.allOn d = true ∧ FailsIn exampleEnv netDownProvider d ∧
      (∀ x ∈ d.before, Domain.enabled World.init.allOn x = true →
        ¬ FailsIn exampleEnv netDownProvider x) ∧
      main exampleEnv netDownProvider ["-a"] World.init = .exit 1 w1 ∧
      w1.stdout = World.init.allOn.stdout ++ String.join
        ((d.before.filter fun x => x.enabled World.init.allOn).map
          fun x => "\n" ++ exampleEnv.bold x.title ++ "\n" ++
            returned (collector exampleEnv netDownProvider x) ++ "\n") ∧
      w1.queries.getLast? = some q ∧ netDownProvider.err q = some e ∧
      w1.stderr = World.init.allOn.stderr ++ "\n" ++ errorLine q.subject e :=
  main_aborts_at_first_failure exampleEnv netDownProvider ["-a"] World.init World.init.allOn
    (by decide) ⟨.net, rfl, .ioCounters, by decide, by decide⟩

/-- C7: an argument `-a` or `--all` (also spelled `-all`, `--a`) can be replaced by the
five arguments `-c -d -m -n -p` anywhere in any command line: parsing ends in the same
way with the same switches from every state, and the whole run (exit code, standard
output, standard error, queries) is the same; `-a` alone leaves all five switches
true. -/
theorem all_flag_is_five_flags (env : Env) (p : Provider) (pre post : List String)
    (a : String) (ha : a = "-a" ∨ a = "--all" ∨ a = "-all" ∨ a = "--a") :
    (∀ w, Parse env (pre ++ a :: post) w =
        Parse env (pre ++ "-c" :: "-d" :: "-m" :: "-n" :: "-p" :: post) w) ∧
      run env p (pre ++ a :: post) =
        run env p (pre ++ "-c" :: "-d" :: "-m" :: "-n" :: "-p" :: post) ∧
      Parse env [a] World.init = .ret ()
        { World.init with cpuStat := true, diskStat := true, memStat := true, netStat := true,
                          procStat := true } := by
  have h1 : ∀ w, Parse env (a :: post) w =
      Parse env ("-c" :: "-d" :: "-m" :: "-n" :: "-p" :: post) w := by
    intro w
    rw [Parse_five]
    simp only [Parse, bind_apply, parseOne_all env a ha]
  have h2 := Parse_congr_left env pre _ _ h1
  refine ⟨h2, run_congr env p _ _ (h2 World.init), ?_⟩
  simp only [Parse, bind_apply, parseOne_all env a ha, pure_apply]
  rfl

/-- Witness of C7: `--all` between two other flags. -/
theorem all_flag_is_five_flags_witness :
    run exampleEnv exampleProvider ["-n", "--all", "-p"] =
      run exampleEnv exampleProvider ["-n", "-c", "-d", "-m", "-n", "-p", "-p"] :=
  (all_flag_is_five_flags exampleEnv exampleProvider ["-n"] ["-p"] "--all"
    (Or.inr (Or.inl rfl))).2.1

/-- Counterexample to C8: the command line `-x -v` contains `-v`, yet the run prints the
usage header and not the version, because parsing stops at the unknown flag `-x`. -/
theorem version_not_reached :
    "-v" ∈ ["-x", "-v"] ∧
      (run exampleEnv exampleProvider ["-x", "-v"]).2.stdout = "Usage of systemstat:\n" ∧
      (run exampleEnv exampleProvider ["--", "--version"]).2.stdout = "Usage of systemstat:\n" := by
  decide

/-- C8, amended: when every argument before an argument naming the version flag is an
accepted setting of a domain flag or of the all flag, the run prints a newline, the bold
word "Version:", a blank, "v1.0.0" and a newline on standard output and exits with code
0; nothing is written to standard error (no usage), no query is put to the metrics
library and no report section is printed, whatever arguments follow. -/
theorem version_after_accepted_flags (env : Env) (p : Provider) (pre post : List String)
    (v : String) (hv : isVersionFlag v = true) (hpre : ∀ a ∈ pre, acceptedFlag a = true) :
    ∃ w, run env p (pre ++ v :: post) = (0, w) ∧
      w.stdout = "\n" ++ env.bold "Version:" ++ " " ++ "v1.0.0" ++ "\n" ∧
      w.stderr = "" ∧ w.queries = [] := by
  obtain ⟨w1, hs, hrest⟩ := Parse_accepted env pre World.init hpre
  have hparse : Parse env (pre ++ v :: post) World.init =
      .exit 0 (w1.out ("\n" ++ env.bold "Version:" ++ " " ++ VERSION ++ "\n")) := by
    rw [hrest]
    simp only [Parse, bind_apply, parseOne_version env v w1 hv]
  refine ⟨w1.out ("\n" ++ env.bold "Version:" ++ " " ++ VERSION ++ "\n"), ?_, ?_, ?_, ?_⟩
  · unfold run
    rw [main_of_parse_exit env p _ _ _ _ hparse]
  · simp only [World.out, hs.1, World.init, VERSION]
    apply String.ext
    simp [String.data_append]
  · simp only [World.out, hs.2.1, World.init]
  · simp only [World.out, hs.2.2.1, World.init]

/-- Witness of the amended C8: `--version` after two domain flags and before an unknown
flag. -/
theorem version_after_accepted_flags_witness :
    ∃ w, run exampleEnv exampleProvider ["-c", "--net=false", "--version", "-x"] = (0, w) ∧
      w.stdout = "\n" ++ exampleEnv.bold "Version:" ++ " " ++ "v1.0.0" ++ "\n" ∧
      w.stderr = "" ∧ w.queries = [] :=
  version_after_accepted_flags exampleEnv exampleProvider ["-c", "--net=false"] ["-x"]
    "--version" (by decide) (by decide)

/-- C9, behaviour of the code: on the command line `-x` the flag package reports the
unknown flag and calls the usage function, which ends the process with `statusCode`,
still 0: the exit code is 0; the usage header is on standard output, the message and the
flag table on standard error; no query is put. -/
theorem unknown_flag_exits_zero (env : Env) (p : Provider) :
    run env p ["-x"] =
      (0, ((World.init.err ("flag provided but not defined: -" ++ "x" ++ "\n")).usage env)) ∧
    (run env p ["-x"]).2.queries = [] ∧
    (run exampleEnv exampleProvider ["-x"]).2.stdout = "Usage of systemstat:\n" := by
  have hu : unknownFlag "-x" = some "x" := by decide
  have hparse : Parse env ["-x"] World.init = .exit 0
      ((World.init.err ("flag provided but not defined: -" ++ "x" ++ "\n")).usage env) := by
    simp only [Parse, bind_apply, parseOne_unknown env "-x" "x" World.init hu]
    rfl
  have hrun : run env p ["-x"] =
      (0, ((World.init.err ("flag provided but not defined: -" ++ "x" ++ "\n")).usage env)) := by
    unfold run
    rw [main_of_parse_exit env p _ _ _ _ hparse]
  refine ⟨hrun, ?_, by decide⟩
  rw [hrun]
  rfl

/-- C10: when parsing returns with all five switches false, the run is the run of
`--help`: exit code 0, the usage header "Usage of <program>:" on standard output, a
newline, the flag table and a newline on standard error, no query to the metrics
library and no report section. -/
theorem no_switch_is_help (env : Env) (p : Provider) (args : List String) (w : World)
    (hparse : Parse env args World.init = .ret () w)
    (hnone : ∀ d, Domain.enabled w d = false) :
    run env p args = run env p ["--help"] ∧
      run env p args = (0, World.init.usage env) ∧
      (World.init.usage env).stdout = "Usage of " ++ env.arg0 ++ ":\n" ∧
      (World.init.usage env).stderr = "\n" ++ env.defaults ++ "\n" ∧
      (World.init.usage env).queries = [] := by
  have hw : w = World.init := by
    obtain ⟨h1, h2, h3, h4⟩ := Parse_ret env args World.init w hparse
    have c1 := hnone .cpu
    have c2 := hnone .disk
    have c3 := hnone .mem
    have c4 := hnone .net
    have c5 := hnone .proc
    rcases w with ⟨a, b, c, d, e, f, g, h, i⟩
    simp only [Domain.enabled, World.init] at *
    simp [c1, c2, c3, c4, c5, h1, h2, h3, h4]
  subst hw
  have hrun : run env p args = (0, World.init.usage env) := by
    unfold run
    rw [main_eq, hparse]
    rfl
  have hs : scan "--help" = .named "help" none := by decide
  have hf : formal "help" = none := by decide
  have hhelp : run env p ["--help"] = (0, World.init.usage env) := by
    unfold run
    rw [main_eq]
    simp only [Parse, bind_apply, parseOne, hs, hf, true_or, if_true, Usage_apply]
    rfl
  refine ⟨hrun.trans hhelp.symm, hrun, ?_, ?_, rfl⟩
  · simp only [World.usage, World.err, World.out, World.init]
    apply String.ext
    simp [String.data_append]
  · simp only [World.usage, World.err, World.out, World.init]
    apply String.ext
    simp [String.data_append]

/-- Witness of C10: the empty command line, and a command line that switches a flag off. -/
theorem no_switch_is_help_witness :
    run exampleEnv exampleProvider [] = run exampleEnv exampleProvider ["--help"] ∧
      run exampleEnv exampleProvider ["-c=false"] = run exampleEnv exampleProvider ["--help"] :=
  ⟨(no_switch_is_help exampleEnv exampleProvider [] World.init (by decide)
      (fun d => by cases d <;> rfl)).1,
   (no_switch_is_help exampleEnv exampleProvider ["-c=false"] World.init (by decide)
      (fun d => by cases d <;> rfl)).1⟩

end Systemstat
